import Mathlib

/-!
Verification development for the `encryptaws` repository (`ec2.py`).

The single source file defines a class `EncryptEC2` that converts the
unencrypted EBS volumes of one EC2 instance to encrypted volumes:
pre-checks, stop instance, tag + detach each unencrypted volume,
snapshot each volume, create encrypted volumes from the snapshots,
attach them back, restart the instance and delete the snapshots.

We embed the program shallowly: the AWS control plane is a record
(`AwsState`) holding the instances, volumes, snapshots, the supplies of
ids AWS will assign to new snapshots/volumes, and the number of polls
each asynchronous waiter needs; every boto3 call the program makes is a
function on a context `Ctx` (AWS state plus a chronological trace of
issued API calls) that can also fail with a `ClientError` code or a
waiter timeout, mirroring the exceptions of the Python SDK.
-/

namespace EncryptAws

/-- Python's `str.startswith` over the underlying character list, so that
it evaluates by plain reduction. -/
def strStartsWith (s p : String) : Bool := p.data.isPrefixOf s.data

instance {ε α : Type} [DecidableEq ε] [DecidableEq α] : DecidableEq (Except ε α) := fun x y =>
  match x, y with
  | Except.ok a, Except.ok b =>
      if h : a = b then isTrue (by rw [h]) else isFalse (by simp [h])
  | Except.error e, Except.error f =>
      if h : e = f then isTrue (by rw [h]) else isFalse (by simp [h])
  | Except.ok _, Except.error _ => isFalse (by simp)
  | Except.error _, Except.ok _ => isFalse (by simp)

/-- A resource tag, a key/value pair of strings. -/
structure Tag where
  key : String
  value : String
deriving DecidableEq, Repr

/-- One attachment record of a volume: the device path and the instance. -/
structure Attachment where
  device : String
  instanceId : String
deriving DecidableEq, Repr

/-- An EBS volume as the program reads it from `describe_volumes`. -/
structure Volume where
  volumeId : String
  volumeType : String
  encrypted : Bool
  tags : List Tag
  attachments : List Attachment
deriving DecidableEq, Repr

/-- A snapshot in the provider's inventory. -/
structure Snapshot where
  snapshotId : String
  volumeId : String
  tags : List Tag
deriving DecidableEq, Repr

/-- An EC2 instance: id, type, availability zone and the volume ids of its
block device mappings. -/
structure Ec2Instance where
  instanceId : String
  instanceType : String
  availabilityZone : String
  blockDeviceMappings : List String
deriving DecidableEq, Repr

/-- The provider-side state the program reads and mutates.  `snapIdSupply`
and `volIdSupply` are the ids AWS will hand out to newly created
snapshots/volumes, consumed front first.  The `…Polls` fields say how many
polls each waiter needs before its condition holds; a waiter times out when
that exceeds its configured maximum attempts. -/
structure AwsState where
  instances : List Ec2Instance
  volumes : List Volume
  snapshots : List Snapshot
  snapIdSupply : List String
  volIdSupply : List String
  stopPolls : Nat
  volAvailPolls : Nat
  snapDonePolls : Nat
  statusOkPolls : Nat
deriving DecidableEq, Repr

/-- One API request issued by the program.  The `createSnapshot` and
`createVolume` events also record the id the provider assigned in the
response (the empty string when the request failed). -/
inductive ApiCall where
  | describeInstances (ids : List String)
  | describeVolumes (ids : List String)
  | createTags (resources : List String) (tags : List Tag)
  | detachVolume (instId volId : String)
  | createSnapshot (volId : String) (tags : List Tag) (snapId : String)
  | createVolume (az : String) (encrypted : Bool) (kmsKeyId : String)
      (snapId : String) (volType : String) (tags : List Tag) (volId : String)
  | attachVolume (device instId volId : String)
  | stopInstances (ids : List String)
  | startInstances (ids : List String)
  | deleteSnapshot (snapId : String)
  | waitOp (kind : String) (ids : List String)
deriving DecidableEq, Repr

/-- Whether a call changes provider state.  Describe calls and waiter polls
only read. -/
def ApiCall.isMutating : ApiCall → Bool
  | .describeInstances _ => false
  | .describeVolumes _ => false
  | .waitOp _ _ => false
  | _ => true

/-- Recognizer for snapshot-creation requests in a trace. -/
def isCreateSnapshotCall : ApiCall → Bool
  | ApiCall.createSnapshot _ _ _ => true
  | _ => false

/-- Recognizer for volume-creation requests in a trace. -/
def isCreateVolumeCall : ApiCall → Bool
  | ApiCall.createVolume _ _ _ _ _ _ _ => true
  | _ => false

/-- Recognizer for attach requests in a trace. -/
def isAttachVolumeCall : ApiCall → Bool
  | ApiCall.attachVolume _ _ _ => true
  | _ => false

/-- Recognizer for detach requests in a trace. -/
def isDetachVolumeCall : ApiCall → Bool
  | ApiCall.detachVolume _ _ => true
  | _ => false

/-- The (source volume id, assigned snapshot id) pair of a
snapshot-creation request. -/
def snapCallPair : ApiCall → Option (String × String)
  | ApiCall.createSnapshot vid _ sid => some (vid, sid)
  | _ => none

/-- An exception raised by a call: a botocore `ClientError` carrying an
error code, or a waiter timeout (`WaiterError`). -/
inductive Err where
  | clientError (code : String)
  | waiterError (kind : String)
deriving DecidableEq, Repr

/-- The execution context: provider state plus the chronological trace of
API calls issued so far. -/
structure Ctx where
  aws : AwsState
  trace : List ApiCall
deriving DecidableEq, Repr

/-- The effect monad of the embedding: state passing over `Ctx` with
`Except Err` results.  The context is returned also on failure so that the
trace of calls issued before an exception remains observable. -/
abbrev M (α : Type) : Type := Ctx → Except Err α × Ctx

/-- Return a pure value, leaving the context unchanged. -/
def M.pure (a : α) : M α := fun c => (Except.ok a, c)

/-- Sequencing: an exception short-circuits, keeping the context reached. -/
def M.bind (x : M α) (f : α → M β) : M β := fun c =>
  match x c with
  | (Except.ok a, c') => f a c'
  | (Except.error e, c') => (Except.error e, c')

instance : Monad M where
  pure := M.pure
  bind := M.bind

/-- Raise an exception. -/
def M.throw (e : Err) : M α := fun c => (Except.error e, c)

/-- Append a call to the trace. -/
def M.record (call : ApiCall) : M Unit := fun c =>
  (Except.ok (), { c with trace := c.trace ++ [call] })

/-- Look up an instance by id. -/
def findInstance (aws : AwsState) (iid : String) : Option Ec2Instance :=
  aws.instances.find? (fun i => i.instanceId == iid)

/-- Look up a volume by id. -/
def findVolume (aws : AwsState) (vid : String) : Option Volume :=
  aws.volumes.find? (fun v => v.volumeId == vid)

/-- Look up a snapshot by id. -/
def findSnapshot (aws : AwsState) (sid : String) : Option Snapshot :=
  aws.snapshots.find? (fun s => s.snapshotId == sid)

/-- `describe_instances(InstanceIds=[iid])`: returns the instance, or
raises `InvalidInstanceID.Malformed` for a syntactically malformed id and
`InvalidInstanceID.NotFound` for a well-formed unknown id, as the EC2 API
does. -/
def describe_instances (iid : String) : M Ec2Instance := fun c =>
  let c := { c with trace := c.trace ++ [ApiCall.describeInstances [iid]] }
  match findInstance c.aws iid with
  | some i => (Except.ok i, c)
  | none =>
      if strStartsWith iid "i-" then
        (Except.error (Err.clientError "InvalidInstanceID.NotFound"), c)
      else
        (Except.error (Err.clientError "InvalidInstanceID.Malformed"), c)

/-- `describe_volumes(VolumeIds=[vid])`: returns the one-element volume
list, or raises for an unknown volume id. -/
def describe_volumes (vid : String) : M (List Volume) := fun c =>
  let c := { c with trace := c.trace ++ [ApiCall.describeVolumes [vid]] }
  match findVolume c.aws vid with
  | some v => (Except.ok [v], c)
  | none => (Except.error (Err.clientError "InvalidVolume.NotFound"), c)

/-- Reading `Volume(id).tags` through the boto3 resource layer. -/
def volumeTags (vid : String) : M (List Tag) := fun c =>
  match findVolume c.aws vid with
  | some v => (Except.ok v.tags, c)
  | none => (Except.error (Err.clientError "InvalidVolume.NotFound"), c)

/-- Reading `Snapshot(id).tags` through the boto3 resource layer. -/
def snapshotTags (sid : String) : M (List Tag) := fun c =>
  match findSnapshot c.aws sid with
  | some s => (Except.ok s.tags, c)
  | none => (Except.error (Err.clientError "InvalidSnapshot.NotFound"), c)

/-- Setting one tag on a tag list, AWS `create_tags` semantics: an existing
key has its value overwritten, a new key is appended. -/
def upsertTag (tags : List Tag) (t : Tag) : List Tag :=
  if tags.any (fun x => x.key == t.key) then
    tags.map (fun x => if x.key == t.key then { x with value := t.value } else x)
  else
    tags ++ [t]

/-- Setting a list of tags in order. -/
def upsertTags (tags : List Tag) (ts : List Tag) : List Tag :=
  ts.foldl upsertTag tags

/-- `create_tags(Resources=…, Tags=…)`: upserts the tags on every named
volume and snapshot. -/
def api_create_tags (resources : List String) (ts : List Tag) : M Unit := fun c =>
  let aws := c.aws
  (Except.ok (),
   { aws := { aws with
       volumes := aws.volumes.map (fun v =>
         if resources.contains v.volumeId then { v with tags := upsertTags v.tags ts } else v),
       snapshots := aws.snapshots.map (fun s =>
         if resources.contains s.snapshotId then { s with tags := upsertTags s.tags ts } else s) },
     trace := c.trace ++ [ApiCall.createTags resources ts] })

/-- `detach_volume(InstanceId=…, VolumeId=…)`: removes the volume's
attachment to the instance and the volume from the instance's block device
mappings. -/
def api_detach_volume (iid vid : String) : M Unit := fun c =>
  let aws := c.aws
  (Except.ok (),
   { aws := { aws with
       volumes := aws.volumes.map (fun v =>
         if v.volumeId == vid then
           { v with attachments := v.attachments.filter (fun a => !(a.instanceId == iid)) }
         else v),
       instances := aws.instances.map (fun i =>
         if i.instanceId == iid then
           { i with blockDeviceMappings := i.blockDeviceMappings.filter (fun x => !(x == vid)) }
         else i) },
     trace := c.trace ++ [ApiCall.detachVolume iid vid] })

/-- `create_snapshot(VolumeId=…, TagSpecifications=…)`: registers a new
snapshot under the next id of the supply and returns that id. -/
def api_create_snapshot (vid : String) (tags : List Tag) : M String := fun c =>
  match c.aws.snapIdSupply with
  | [] =>
      (Except.error (Err.clientError "SnapshotLimitExceeded"),
       { c with trace := c.trace ++ [ApiCall.createSnapshot vid tags ""] })
  | sid :: rest =>
      (Except.ok sid,
       { aws := { c.aws with
           snapshots := c.aws.snapshots ++ [⟨sid, vid, tags⟩],
           snapIdSupply := rest },
         trace := c.trace ++ [ApiCall.createSnapshot vid tags sid] })

/-- `create_volume(…)`: registers a new, unattached volume under the next
id of the supply and returns that id. -/
def api_create_volume (az : String) (encrypted : Bool) (kmsKeyId : String)
    (sid : String) (volType : String) (tags : List Tag) : M String := fun c =>
  match c.aws.volIdSupply with
  | [] =>
      (Except.error (Err.clientError "VolumeLimitExceeded"),
       { c with trace := c.trace ++ [ApiCall.createVolume az encrypted kmsKeyId sid volType tags ""] })
  | vid :: rest =>
      (Except.ok vid,
       { aws := { c.aws with
           volumes := c.aws.volumes ++ [⟨vid, volType, encrypted, tags, []⟩],
           volIdSupply := rest },
         trace := c.trace ++ [ApiCall.createVolume az encrypted kmsKeyId sid volType tags vid] })

/-- `attach_volume(Device=…, InstanceId=…, VolumeId=…)`: appends the
attachment to the volume and the volume id to the instance's block device
mappings. -/
def api_attach_volume (device iid vid : String) : M Unit := fun c =>
  let aws := c.aws
  (Except.ok (),
   { aws := { aws with
       volumes := aws.volumes.map (fun v =>
         if v.volumeId == vid then
           { v with attachments := v.attachments ++ [⟨device, iid⟩] }
         else v),
       instances := aws.instances.map (fun i =>
         if i.instanceId == iid then
           { i with blockDeviceMappings := i.blockDeviceMappings ++ [vid] }
         else i) },
     trace := c.trace ++ [ApiCall.attachVolume device iid vid] })

/-- `stop_instances` / `start_instances`: the program never reads the
run state back (completion is observed through waiters), so these only
record the request. -/
def api_stop_instances (iid : String) : M Unit :=
  M.record (ApiCall.stopInstances [iid])

/-- See `api_stop_instances`. -/
def api_start_instances (iid : String) : M Unit :=
  M.record (ApiCall.startInstances [iid])

/-- `delete_snapshot(SnapshotId=…)`: removes the snapshot. -/
def api_delete_snapshot (sid : String) : M Unit := fun c =>
  (Except.ok (),
   { aws := { c.aws with
       snapshots := c.aws.snapshots.filter (fun s => !(s.snapshotId == sid)) },
     trace := c.trace ++ [ApiCall.deleteSnapshot sid] })

/-- A waiter: polls until its condition holds, raising `WaiterError` when
the needed number of polls exceeds the configured maximum attempts. -/
def waiterWait (kind : String) (ids : List String) (needed _delay maxAttempts : Nat) :
    M Unit := fun c =>
  let c := { c with trace := c.trace ++ [ApiCall.waitOp kind ids] }
  if needed ≤ maxAttempts then (Except.ok (), c)
  else (Except.error (Err.waiterError kind), c)

/-- The `instance_stopped` waiter. -/
def waitInstanceStopped (iid : String) (delay maxAttempts : Nat) : M Unit := fun c =>
  waiterWait "instance_stopped" [iid] c.aws.stopPolls delay maxAttempts c

/-- The `volume_available` waiter. -/
def waitVolumeAvailable (vid : String) (delay maxAttempts : Nat) : M Unit := fun c =>
  waiterWait "volume_available" [vid] c.aws.volAvailPolls delay maxAttempts c

/-- The `snapshot_completed` waiter. -/
def waitSnapshotCompleted (sid : String) (delay maxAttempts : Nat) : M Unit := fun c =>
  waiterWait "snapshot_completed" [sid] c.aws.snapDonePolls delay maxAttempts c

/-- The `instance_status_ok` waiter. -/
def waitStatusOk (iid : String) (delay maxAttempts : Nat) : M Unit := fun c =>
  waiterWait "instance_status_ok" [iid] c.aws.statusOkPolls delay maxAttempts c

/-- Placeholder volume used to express Python's `list[0]` on a possibly
empty list; never reached on the lists the program builds. -/
def noVolume : Volume := ⟨"", "", false, [], []⟩

/-- Placeholder attachment for Python's `item['Attachments'][0]`. -/
def noAttachment : Attachment := ⟨"", ""⟩

/-- The constructor arguments and constants of `EncryptEC2.__init__`:
instance id, KMS key, and the waiter configuration
(`self._delay = 5`, `self._max_attempts = 60`). -/
structure Cfg where
  instance_id : String
  key : String
  delay : Nat
  max_attempts : Nat
deriving DecidableEq, Repr

/-- The configuration `__init__` builds for a given instance id and key. -/
def mkCfg (instance_id key : String) : Cfg :=
  ⟨instance_id, key, 5, 60⟩

/-- Inner loop body of `get_ebs_list`: for each unencrypted volume of one
`describe_volumes` response, Python appends `resp['Volumes'][0]`. -/
def unencryptedOf (vols : List Volume) : List Volume :=
  (vols.filter (fun v => !v.encrypted)).map (fun _ => vols.headD noVolume)

/-- Loop of `EncryptEC2.get_ebs_list` over the block device mappings: one
`describe_volumes` call per volume id, collecting the unencrypted ones. -/
def ebsLoop : List String → M (List Volume)
  | [] => Pure.pure []
  | vid :: rest => do
      let vols ← describe_volumes vid
      let others ← ebsLoop rest
      Pure.pure (unencryptedOf vols ++ others)

/-- `EncryptEC2.get_ebs_list`: describes the instance and returns the
details of its unencrypted volumes. -/
def get_ebs_list (cfg : Cfg) : M (List Volume) := do
  let describe_ec2 ← describe_instances cfg.instance_id
  ebsLoop describe_ec2.blockDeviceMappings

/-- The disallowed legacy instance-type families of `pre_checks`:
`instance_type.startswith(('c1', 'm1', 'm2', 't1'))`. -/
def legacyType (instanceType : String) : Bool :=
  strStartsWith instanceType "c1" || strStartsWith instanceType "m1" ||
  strStartsWith instanceType "m2" || strStartsWith instanceType "t1"

/-- The `try` block of `EncryptEC2.pre_checks`: fail when every volume is
already encrypted, fail when the instance type is in the legacy family,
succeed otherwise. -/
def preChecksBody (cfg : Cfg) : M Bool := do
  let ebs ← get_ebs_list cfg
  if ebs.isEmpty then
    Pure.pure false
  else do
    let inst ← describe_instances cfg.instance_id
    if legacyType inst.instanceType then
      Pure.pure false
    else
      Pure.pure true

/-- `EncryptEC2.pre_checks` with its `except ClientError` handler: a
malformed-instance-id error returns `False`; any other client error is
only logged, so the function falls off the end and returns Python's
`None`, modelled as `none`.  A normal result `b` is `some b`. -/
def pre_checks (cfg : Cfg) : M (Option Bool) := fun c =>
  match preChecksBody cfg c with
  | (Except.ok b, c') => (Except.ok (some b), c')
  | (Except.error (Err.clientError code), c') =>
      if code == "InvalidInstanceID.Malformed" then (Except.ok (some false), c')
      else (Except.ok none, c')
  | (Except.error e, c') => (Except.error e, c')

/-- The object state `__init__` leaves behind: the configuration, the
`_pre_checks_passed` flag and the cached `_ec2_details` (present only when
the pre-checks passed). -/
structure EncryptEC2 where
  cfg : Cfg
  pre_checks_passed : Bool
  ec2_details : Option Ec2Instance
deriving DecidableEq, Repr

/-- `EncryptEC2.__init__`: runs the pre-checks; only a `True` result (the
sole truthy value among `True`/`False`/`None`) sets `_pre_checks_passed`
and caches `describe_instances`. -/
def EncryptEC2.init (instance_id key : String) : M EncryptEC2 := do
  let cfg := mkCfg instance_id key
  let r ← pre_checks cfg
  match r with
  | some true => do
      let det ← describe_instances instance_id
      Pure.pure ⟨cfg, true, some det⟩
  | _ => Pure.pure ⟨cfg, false, none⟩

/-- `EncryptEC2.get_az`: reads the availability zone from the cached
`_ec2_details`; an unset attribute is Python's `AttributeError`. -/
def get_az (e : EncryptEC2) : M String := fun c =>
  match e.ec2_details with
  | some det => (Except.ok det.availabilityZone, c)
  | none => (Except.error (Err.clientError "AttributeError"), c)

/-- `EncryptEC2.stop_instance`: stop request plus `instance_stopped`
waiter. -/
def stop_instance (cfg : Cfg) : M Unit := do
  api_stop_instances cfg.instance_id
  waitInstanceStopped cfg.instance_id cfg.delay cfg.max_attempts

/-- The tag recording the device path a volume is attached at. -/
def devTag (item : Volume) : Tag :=
  ⟨"device-name", (item.attachments.headD noAttachment).device⟩

/-- The tag recording a volume's type. -/
def typTag (item : Volume) : Tag :=
  ⟨"volume-type", item.volumeType⟩

/-- Loop of `EncryptEC2.detach_volume`: tag each volume with its device
path and type, detach it, wait until it is available. -/
def detachLoop (cfg : Cfg) : List Volume → M Unit
  | [] => Pure.pure ()
  | item :: rest => do
      api_create_tags [item.volumeId] [devTag item, typTag item]
      api_detach_volume cfg.instance_id item.volumeId
      waitVolumeAvailable item.volumeId cfg.delay cfg.max_attempts
      detachLoop cfg rest

/-- `EncryptEC2.detach_volume`: re-lists the unencrypted volumes, then
tags and detaches each. -/
def detach_volume (cfg : Cfg) : M Unit := do
  let volumes ← get_ebs_list cfg
  detachLoop cfg volumes

/-- The tag filter of `create_snapshots`: drop every tag whose key starts
with the reserved prefix `aws`. -/
def dropAwsTags (tags : List Tag) : List Tag :=
  tags.filter (fun t => !(strStartsWith t.key "aws"))

/-- `EncryptEC2.create_snapshots`: for each volume id, read the volume's
tags, create a snapshot carrying the non-reserved tags, wait for it, and
collect the snapshot ids in input order. -/
def create_snapshots (cfg : Cfg) : List String → M (List String)
  | [] => Pure.pure []
  | volume :: rest => do
      let tags ← volumeTags volume
      let sid ← api_create_snapshot volume (dropAwsTags tags)
      waitSnapshotCompleted sid cfg.delay cfg.max_attempts
      let others ← create_snapshots cfg rest
      Pure.pure (sid :: others)

/-- Python's `volume_type = ''` followed by
`for tag in tags: if tag['Key'] == k: volume_type = tag['Value']`:
the value of the last tag with the given key, or the initial string. -/
def lastTagValue (tags : List Tag) (k : String) (init : String) : String :=
  tags.foldl (fun acc t => if t.key == k then t.value else acc) init

/-- `EncryptEC2.create_volume`: for each snapshot, read back its
`volume-type` tag, create an encrypted volume from it carrying all the
snapshot's tags, wait for it, and collect the new volume ids in order. -/
def create_volume (cfg : Cfg) (availability_zone : String) :
    List String → M (List String)
  | [] => Pure.pure []
  | snapshot :: rest => do
      let stags ← snapshotTags snapshot
      let volume_type := lastTagValue stags "volume-type" ""
      let vid ← api_create_volume availability_zone true cfg.key snapshot volume_type stags
      waitVolumeAvailable vid cfg.delay cfg.max_attempts
      let others ← create_volume cfg availability_zone rest
      Pure.pure (vid :: others)

/-- `EncryptEC2.attach_volume`: for each volume, read back its
`device-name` tag and attach it to the instance at that device; returns
`True`. -/
def attach_volume (cfg : Cfg) : List String → M Bool
  | [] => Pure.pure true
  | volume :: rest => do
      let vtags ← volumeTags volume
      let device_name := lastTagValue vtags "device-name" ""
      api_attach_volume device_name cfg.instance_id volume
      attach_volume cfg rest

/-- `EncryptEC2.start_instance`: start request plus `instance_status_ok`
waiter. -/
def start_instance (cfg : Cfg) : M Unit := do
  api_start_instances cfg.instance_id
  waitStatusOk cfg.instance_id cfg.delay cfg.max_attempts

/-- `EncryptEC2.delete_snapshots`: one delete request per snapshot. -/
def delete_snapshots : List String → M Unit
  | [] => Pure.pure ()
  | item :: rest => do
      api_delete_snapshot item
      delete_snapshots rest

/-- `EncryptEC2.start_encryption`: the whole workflow, guarded by
`_pre_checks_passed`. -/
def start_encryption (e : EncryptEC2) : M Unit := do
  if e.pre_checks_passed then do
    let ebs ← get_ebs_list e.cfg
    let volume_ids := ebs.map Volume.volumeId
    let availability_zone ← get_az e
    stop_instance e.cfg
    detach_volume e.cfg
    let snapshots ← create_snapshots e.cfg volume_ids
    let encrypted_volumes ← create_volume e.cfg availability_zone snapshots
    let _ ← attach_volume e.cfg encrypted_volumes
    start_instance e.cfg
    delete_snapshots snapshots
  else
    Pure.pure ()

/-- The `__main__` path: construct `EncryptEC2` and run
`start_encryption`. -/
def runEncryptEC2 (instance_id key : String) : M Unit := do
  let e ← EncryptEC2.init instance_id key
  start_encryption e

/-! ## Pure per-volume transformations of the workflow steps -/

/-- Effect of the `create_tags` call of `detach_volume`'s loop iteration
for `item` on one provider-state volume. -/
def detTagUpd (item : Volume) (v : Volume) : Volume :=
  if [item.volumeId].contains v.volumeId then
    { v with tags := upsertTags v.tags [devTag item, typTag item] }
  else v

/-- Effect of the `detach_volume` API call on one provider-state volume. -/
def detDetachUpd (iid vid : String) (v : Volume) : Volume :=
  if v.volumeId == vid then
    { v with attachments := v.attachments.filter (fun a => !(a.instanceId == iid)) }
  else v

/-- Combined effect of one `detach_volume` loop iteration on one
provider-state volume. -/
def detStep (iid : String) (item : Volume) (v : Volume) : Volume :=
  detDetachUpd iid item.volumeId (detTagUpd item v)

/-- Effect of the `attach_volume` API call on one provider-state volume. -/
def attachUpd (device iid vid : String) (v : Volume) : Volume :=
  if v.volumeId == vid then
    { v with attachments := v.attachments ++ [⟨device, iid⟩] }
  else v

/-- The device path `attach_volume` reads back from a volume's tags. -/
def deviceOf (v : Volume) : String := lastTagValue v.tags "device-name" ""

/-! ## Concrete provider states used as witnesses -/

/-- An unencrypted volume with a reserved-prefix tag and a normal tag,
attached at `/dev/sda1`. -/
def demoVol : Volume :=
  ⟨"vol-1", "gp2", false, [⟨"Name", "web"⟩, ⟨"aws:created", "x"⟩],
   [⟨"/dev/sda1", "i-1"⟩]⟩

/-- An already encrypted volume attached at `/dev/sdb`. -/
def demoVolEnc : Volume := ⟨"vol-2", "gp3", true, [], [⟨"/dev/sdb", "i-1"⟩]⟩

/-- The demo instance `i-1` with both volumes attached. -/
def demoInst : Ec2Instance := ⟨"i-1", "t3.micro", "us-east-1a", ["vol-1", "vol-2"]⟩

/-- A provider state on which a full run succeeds. -/
def demoAws : AwsState :=
  ⟨[demoInst], [demoVol, demoVolEnc], [], ["snap-1", "snap-2"],
   ["nvol-1", "nvol-2"], 1, 1, 1, 1⟩

/-- Starting context for the demo runs. -/
def demoCtx : Ctx := ⟨demoAws, []⟩

/-- Variant: every attached volume already encrypted. -/
def awsAllEnc : AwsState :=
  { demoAws with volumes := [{ demoVol with encrypted := true }, demoVolEnc] }

/-- Variant: the instance has a disallowed legacy type. -/
def awsLegacy : AwsState :=
  { demoAws with instances := [{ demoInst with instanceType := "m1.small" }] }

/-- Variant: the instance-stopped waiter needs more polls than the
configured 60 attempts. -/
def awsStopTimeout : AwsState := { demoAws with stopPolls := 61 }

/-- The context `create_snapshots` reaches from `demoCtx` on `vol-1`. -/
def snapDemoOut : Ctx :=
  ⟨{ demoAws with
       snapshots := [⟨"snap-1", "vol-1", [⟨"Name", "web"⟩]⟩],
       snapIdSupply := ["snap-2"] },
   [ApiCall.createSnapshot "vol-1" [⟨"Name", "web"⟩] "snap-1",
    ApiCall.waitOp "snapshot_completed" ["snap-1"]]⟩

/-- A snapshot carrying no `volume-type` tag. -/
def snapX : Snapshot := ⟨"snap-x", "vol-1", [⟨"Name", "web"⟩]⟩

/-- The final context of the successful demo run
`runEncryptEC2 "i-1" "key"` from `demoCtx`. -/
def demoRunOut : Ctx :=
  ⟨⟨[⟨"i-1", "t3.micro", "us-east-1a", ["vol-2", "nvol-1"]⟩],
    [⟨"vol-1", "gp2", false,
      [⟨"Name", "web"⟩, ⟨"aws:created", "x"⟩, ⟨"device-name", "/dev/sda1"⟩,
       ⟨"volume-type", "gp2"⟩], []⟩,
     ⟨"vol-2", "gp3", true, [], [⟨"/dev/sdb", "i-1"⟩]⟩,
     ⟨"nvol-1", "gp2", true,
      [⟨"Name", "web"⟩, ⟨"device-name", "/dev/sda1"⟩, ⟨"volume-type", "gp2"⟩],
      [⟨"/dev/sda1", "i-1"⟩]⟩],
    [], ["snap-2"], ["nvol-2"], 1, 1, 1, 1⟩,
   [ApiCall.describeInstances ["i-1"],
    ApiCall.describeVolumes ["vol-1"],
    ApiCall.describeVolumes ["vol-2"],
    ApiCall.describeInstances ["i-1"],
    ApiCall.describeInstances ["i-1"],
    ApiCall.describeInstances ["i-1"],
    ApiCall.describeVolumes ["vol-1"],
    ApiCall.describeVolumes ["vol-2"],
    ApiCall.stopInstances ["i-1"],
    ApiCall.waitOp "instance_stopped" ["i-1"],
    ApiCall.describeInstances ["i-1"],
    ApiCall.describeVolumes ["vol-1"],
    ApiCall.describeVolumes ["vol-2"],
    ApiCall.createTags ["vol-1"] [⟨"device-name", "/dev/sda1"⟩, ⟨"volume-type", "gp2"⟩],
    ApiCall.detachVolume "i-1" "vol-1",
    ApiCall.waitOp "volume_available" ["vol-1"],
    ApiCall.createSnapshot "vol-1"
      [⟨"Name", "web"⟩, ⟨"device-name", "/dev/sda1"⟩, ⟨"volume-type", "gp2"⟩] "snap-1",
    ApiCall.waitOp "snapshot_completed" ["snap-1"],
    ApiCall.createVolume "us-east-1a" true "key" "snap-1" "gp2"
      [⟨"Name", "web"⟩, ⟨"device-name", "/dev/sda1"⟩, ⟨"volume-type", "gp2"⟩] "nvol-1",
    ApiCall.waitOp "volume_available" ["nvol-1"],
    ApiCall.attachVolume "/dev/sda1" "i-1" "nvol-1",
    ApiCall.startInstances ["i-1"],
    ApiCall.waitOp "instance_status_ok" ["i-1"],
    ApiCall.deleteSnapshot "snap-1"]⟩

/-- Provider state holding only `snapX` as snapshot inventory. -/
def awsSnapX : AwsState := { demoAws with snapshots := [snapX] }

/-- The contexts the demo run passes through, as prefixes of the final
trace over the evolving provider state. -/
def ctxA : Ctx := ⟨demoAws, demoRunOut.trace.take 5⟩

/-- Demo context after the workflow's own volume re-listing. -/
def ctxB : Ctx := ⟨demoAws, demoRunOut.trace.take 8⟩

/-- Demo context after the stop request and its waiter. -/
def ctxC : Ctx := ⟨demoAws, demoRunOut.trace.take 10⟩

/-- `vol-1` after `detach_volume` tagged and detached it. -/
def demoVolTagged : Volume :=
  ⟨"vol-1", "gp2", false,
   [⟨"Name", "web"⟩, ⟨"aws:created", "x"⟩, ⟨"device-name", "/dev/sda1"⟩,
    ⟨"volume-type", "gp2"⟩], []⟩

/-- Demo provider state after `detach_volume`. -/
def awsD : AwsState :=
  ⟨[⟨"i-1", "t3.micro", "us-east-1a", ["vol-2"]⟩],
   [demoVolTagged, demoVolEnc], [], ["snap-1", "snap-2"], ["nvol-1", "nvol-2"],
   1, 1, 1, 1⟩

/-- Demo context after `detach_volume`. -/
def ctxD : Ctx := ⟨awsD, demoRunOut.trace.take 16⟩

/-- The intermediate snapshot of the demo run. -/
def demoSnap : Snapshot :=
  ⟨"snap-1", "vol-1",
   [⟨"Name", "web"⟩, ⟨"device-name", "/dev/sda1"⟩, ⟨"volume-type", "gp2"⟩]⟩

/-- Demo context after `create_snapshots`. -/
def ctxE : Ctx :=
  ⟨{ awsD with snapshots := [demoSnap], snapIdSupply := ["snap-2"] },
   demoRunOut.trace.take 18⟩

/-- The encrypted replacement volume of the demo run, just created. -/
def demoNewVol : Volume :=
  ⟨"nvol-1", "gp2", true,
   [⟨"Name", "web"⟩, ⟨"device-name", "/dev/sda1"⟩, ⟨"volume-type", "gp2"⟩], []⟩

/-- Demo context after `create_volume`. -/
def ctxF : Ctx :=
  ⟨{ awsD with
       snapshots := [demoSnap], snapIdSupply := ["snap-2"],
       volumes := [demoVolTagged, demoVolEnc, demoNewVol],
       volIdSupply := ["nvol-2"] },
   demoRunOut.trace.take 20⟩

/-- Demo context after `attach_volume`. -/
def ctxG : Ctx :=
  ⟨{ awsD with
       instances := [⟨"i-1", "t3.micro", "us-east-1a", ["vol-2", "nvol-1"]⟩],
       snapshots := [demoSnap], snapIdSupply := ["snap-2"],
       volumes := [demoVolTagged, demoVolEnc,
         { demoNewVol with attachments := [⟨"/dev/sda1", "i-1"⟩] }],
       volIdSupply := ["nvol-2"] },
   demoRunOut.trace.take 21⟩

/-- Demo context after `start_instance`. -/
def ctxH : Ctx := ⟨ctxG.aws, demoRunOut.trace.take 23⟩

/-! ## Pure description of `get_ebs_list`

`get_ebs_list` only issues describe calls, so its result is a function of
the provider state alone; `ebsSpec` computes it. -/

/-- Pure counterpart of `describe_instances`. -/
def describeInstSpec (aws : AwsState) (iid : String) : Except Err Ec2Instance :=
  match findInstance aws iid with
  | some i => Except.ok i
  | none =>
      if strStartsWith iid "i-" then
        Except.error (Err.clientError "InvalidInstanceID.NotFound")
      else
        Except.error (Err.clientError "InvalidInstanceID.Malformed")

/-- Pure counterpart of `ebsLoop`. -/
def ebsLoopSpec (aws : AwsState) : List String → Except Err (List Volume)
  | [] => Except.ok []
  | vid :: rest =>
      match findVolume aws vid with
      | none => Except.error (Err.clientError "InvalidVolume.NotFound")
      | some v =>
          match ebsLoopSpec aws rest with
          | Except.error e => Except.error e
          | Except.ok others => Except.ok (unencryptedOf [v] ++ others)

/-- Pure counterpart of `get_ebs_list`. -/
def ebsSpec (aws : AwsState) (iid : String) : Except Err (List Volume) :=
  match describeInstSpec aws iid with
  | Except.error e => Except.error e
  | Except.ok i => ebsLoopSpec aws i.blockDeviceMappings

/-- Pure counterpart of the `try` block of `pre_checks`. -/
def preChecksSpec (aws : AwsState) (iid : String) : Except Err Bool :=
  match ebsSpec aws iid with
  | Except.error e => Except.error e
  | Except.ok ebs =>
      if ebs.isEmpty then Except.ok false
      else
        match describeInstSpec aws iid with
        | Except.error e => Except.error e
        | Except.ok inst => Except.ok (!legacyType inst.instanceType)

/-- Pure counterpart of `pre_checks` including its exception handler:
the Python return value, with `none` for the fall-through `None`. -/
def preChecksResSpec (aws : AwsState) (iid : String) : Option Bool :=
  match preChecksSpec aws iid with
  | Except.ok b => some b
  | Except.error (Err.clientError code) =>
      if code == "InvalidInstanceID.Malformed" then some false else none
  | Except.error (Err.waiterError _) => none

/-- `ReadOnly c c'`: the provider state is unchanged and the trace only
grew by non-mutating calls. -/
def ReadOnly (c c' : Ctx) : Prop :=
  c'.aws = c.aws ∧
  ∃ Δ, c'.trace = c.trace ++ Δ ∧ ∀ a ∈ Δ, a.isMutating = false

/-! ## Monad calculus -/

/-- Do-notation sequencing on `M` is `M.bind`. -/
theorem bind_def (x : M α) (f : α → M β) : x >>= f = M.bind x f := rfl

/-- Do-notation `pure` on `M` is `M.pure`. -/
theorem pure_def (a : α) : (Pure.pure a : M α) = M.pure a := rfl

/-- Unfolding `M.pure`. -/
theorem M.pure_apply (a : α) (c : Ctx) : (M.pure a : M α) c = (Except.ok a, c) := rfl

/-- A bind yields `ok` exactly when both parts do. -/
theorem M.bind_ok (x : M α) (f : α → M β) (c c' : Ctx) (b : β) :
    M.bind x f c = (Except.ok b, c') ↔
      ∃ a c₁, x c = (Except.ok a, c₁) ∧ f a c₁ = (Except.ok b, c') := by
  constructor
  · intro h
    rcases hx : x c with ⟨r, c₁⟩
    cases r with
    | ok a =>
        refine ⟨a, c₁, rfl, ?_⟩
        simpa [M.bind, hx] using h
    | error e =>
        simp [M.bind, hx] at h
  · rintro ⟨a, c₁, hx, hf⟩
    simp [M.bind, hx, hf]

/-- A bind propagates: the outcome of a bind is either an error in the
first part or the run of the second part from the intermediate context. -/
theorem M.bind_cases (x : M α) (f : α → M β) (c : Ctx) :
    (∃ a c₁, x c = (Except.ok a, c₁) ∧ M.bind x f c = f a c₁) ∨
    (∃ e c₁, x c = (Except.error e, c₁) ∧ M.bind x f c = (Except.error e, c₁)) := by
  rcases hx : x c with ⟨r, c₁⟩
  cases r with
  | ok a => exact Or.inl ⟨a, c₁, rfl, by simp [M.bind, hx]⟩
  | error e => exact Or.inr ⟨e, c₁, rfl, by simp [M.bind, hx]⟩

/-! ## Read-only steps -/

theorem ReadOnly.refl (c : Ctx) : ReadOnly c c :=
  ⟨rfl, [], by simp, by simp⟩

theorem ReadOnly.trans {c₁ c₂ c₃ : Ctx} (h₁ : ReadOnly c₁ c₂) (h₂ : ReadOnly c₂ c₃) :
    ReadOnly c₁ c₃ := by
  obtain ⟨ha₁, Δ₁, ht₁, hm₁⟩ := h₁
  obtain ⟨ha₂, Δ₂, ht₂, hm₂⟩ := h₂
  refine ⟨ha₂.trans ha₁, Δ₁ ++ Δ₂, by simp [ht₂, ht₁], ?_⟩
  intro a ha
  rcases List.mem_append.mp ha with h | h
  · exact hm₁ a h
  · exact hm₂ a h

/-- Canonical equation for `describe_instances`. -/
theorem describe_instances_eq (iid : String) (c : Ctx) :
    describe_instances iid c =
      (describeInstSpec c.aws iid,
       ⟨c.aws, c.trace ++ [ApiCall.describeInstances [iid]]⟩) := by
  unfold describe_instances describeInstSpec
  rcases h : findInstance c.aws iid with _ | i <;> simp [h]
  split <;> rfl

/-- Canonical equation for `describe_volumes`. -/
theorem describe_volumes_eq (vid : String) (c : Ctx) :
    describe_volumes vid c =
      ((match findVolume c.aws vid with
        | some v => Except.ok [v]
        | none => Except.error (Err.clientError "InvalidVolume.NotFound")),
       ⟨c.aws, c.trace ++ [ApiCall.describeVolumes [vid]]⟩) := by
  unfold describe_volumes
  rcases h : findVolume c.aws vid with _ | v <;> simp [h]

/-- A one-call read-only extension. -/
theorem readOnly_single (c : Ctx) (aws : AwsState) (a : ApiCall)
    (haws : aws = c.aws) (hm : a.isMutating = false) :
    ReadOnly c ⟨aws, c.trace ++ [a]⟩ :=
  ⟨haws, [a], rfl, by simpa⟩

/-- `describe_instances` is read-only, in both outcomes. -/
theorem describe_instances_readonly (iid : String) (c : Ctx) :
    ReadOnly c (describe_instances iid c).2 := by
  rw [describe_instances_eq]
  exact readOnly_single c _ _ rfl rfl

/-- The result of `describe_instances` is its pure counterpart. -/
theorem describe_instances_res (iid : String) (c : Ctx) :
    (describe_instances iid c).1 = describeInstSpec c.aws iid := by
  rw [describe_instances_eq]

/-- `describe_volumes` is read-only, in both outcomes. -/
theorem describe_volumes_readonly (vid : String) (c : Ctx) :
    ReadOnly c (describe_volumes vid c).2 := by
  rw [describe_volumes_eq]
  exact readOnly_single c _ _ rfl rfl

/-- The loop of `get_ebs_list` is read-only and computes `ebsLoopSpec`. -/
theorem ebsLoop_spec (l : List String) (c : Ctx) :
    (ebsLoop l c).1 = ebsLoopSpec c.aws l ∧ ReadOnly c (ebsLoop l c).2 := by
  induction l generalizing c with
  | nil => exact ⟨rfl, ReadOnly.refl c⟩
  | cons vid rest ih =>
      simp only [ebsLoop, bind_def, M.bind, describe_volumes_eq, ebsLoopSpec]
      rcases h : findVolume c.aws vid with _ | v <;> simp only [h]
      · exact ⟨trivial, readOnly_single c c.aws (ApiCall.describeVolumes [vid]) rfl rfl⟩
      · have ih₁ := ih ⟨c.aws, c.trace ++ [ApiCall.describeVolumes [vid]]⟩
        rcases hloop : ebsLoop rest ⟨c.aws, c.trace ++ [ApiCall.describeVolumes [vid]]⟩
          with ⟨r₂, c₂⟩
        rw [hloop] at ih₁
        have hs : ebsLoopSpec c.aws rest = r₂ := ih₁.1.symm
        have hro₂ : ReadOnly c c₂ :=
          (readOnly_single c c.aws (ApiCall.describeVolumes [vid]) rfl rfl).trans ih₁.2
        rw [hs]
        cases r₂ with
        | error e => exact ⟨rfl, hro₂⟩
        | ok others => exact ⟨rfl, hro₂⟩

/-- `get_ebs_list` is read-only and computes `ebsSpec`: it performs no
side effect on the provider and its result is a function of the provider
state alone. -/
theorem get_ebs_list_spec (cfg : Cfg) (c : Ctx) :
    (get_ebs_list cfg c).1 = ebsSpec c.aws cfg.instance_id ∧
    ReadOnly c (get_ebs_list cfg c).2 := by
  simp only [get_ebs_list, bind_def, ebsSpec]
  rcases hdi : describe_instances cfg.instance_id c with ⟨r, c₁⟩
  have hro₁ : ReadOnly c c₁ := by
    have := describe_instances_readonly cfg.instance_id c
    rwa [hdi] at this
  have hres := describe_instances_res cfg.instance_id c
  rw [hdi] at hres
  cases r with
  | error e => simp [M.bind, hdi, ← hres, hro₁]
  | ok inst =>
      have hloop := ebsLoop_spec inst.blockDeviceMappings c₁
      simp [M.bind, hdi, ← hres, hloop.1, hro₁.1, hro₁.trans hloop.2]

/-! ## `pre_checks` and `__init__` -/

/-- Errors of the pure instance lookup are client errors. -/
theorem describeInstSpec_error (aws : AwsState) (iid : String) (e : Err)
    (h : describeInstSpec aws iid = Except.error e) : ∃ code, e = Err.clientError code := by
  unfold describeInstSpec at h
  rcases hf : findInstance aws iid with _ | i <;> simp [hf] at h
  · split at h <;> exact ⟨_, (Except.error.inj h).symm⟩

/-- Errors of the pure volume-listing loop are client errors. -/
theorem ebsLoopSpec_error (aws : AwsState) (l : List String) (e : Err)
    (h : ebsLoopSpec aws l = Except.error e) : ∃ code, e = Err.clientError code := by
  induction l with
  | nil => simp [ebsLoopSpec] at h
  | cons vid rest ih =>
      unfold ebsLoopSpec at h
      rcases hf : findVolume aws vid with _ | v <;> simp [hf] at h
      · exact ⟨_, h.symm⟩
      · rcases hr : ebsLoopSpec aws rest with e' | others <;> simp [hr] at h
        · exact ih (by rw [hr, h])

/-- Errors of the pure discovery are client errors. -/
theorem ebsSpec_error (aws : AwsState) (iid : String) (e : Err)
    (h : ebsSpec aws iid = Except.error e) : ∃ code, e = Err.clientError code := by
  unfold ebsSpec at h
  rcases hd : describeInstSpec aws iid with e' | i <;> simp [hd] at h
  · exact h ▸ describeInstSpec_error aws iid e' hd
  · exact ebsLoopSpec_error aws _ e h

/-- Errors of the pure pre-check body are client errors. -/
theorem preChecksSpec_error (aws : AwsState) (iid : String) (e : Err)
    (h : preChecksSpec aws iid = Except.error e) : ∃ code, e = Err.clientError code := by
  unfold preChecksSpec at h
  rcases he : ebsSpec aws iid with e' | ebs <;> simp [he] at h
  · exact h ▸ ebsSpec_error aws iid e' he
  · split at h
    · simp at h
    · rcases hd : describeInstSpec aws iid with e' | i <;> simp [hd] at h
      · exact h ▸ describeInstSpec_error aws iid e' hd

/-- The `try` block of `pre_checks` is read-only and computes
`preChecksSpec`. -/
theorem preChecksBody_spec (cfg : Cfg) (c : Ctx) :
    (preChecksBody cfg c).1 = preChecksSpec c.aws cfg.instance_id ∧
    ReadOnly c (preChecksBody cfg c).2 := by
  simp only [preChecksBody, bind_def, M.bind, preChecksSpec]
  rcases hg : get_ebs_list cfg c with ⟨r, c₁⟩
  have hspec := get_ebs_list_spec cfg c
  rw [hg] at hspec
  have hr : r = ebsSpec c.aws cfg.instance_id := hspec.1
  have hro₁ : ReadOnly c c₁ := hspec.2
  cases r with
  | error e => simp [← hr, hro₁]
  | ok ebs =>
      rw [← hr]
      by_cases hemp : ebs.isEmpty
      · simp [hemp, pure_def, M.pure, hro₁]
      · simp only [hemp, if_false, Bool.false_eq_true]
        rcases hdi : describe_instances cfg.instance_id c₁ with ⟨r₂, c₂⟩
        have hres := describe_instances_res cfg.instance_id c₁
        rw [hdi] at hres
        have hro₂ : ReadOnly c c₂ := by
          have := describe_instances_readonly cfg.instance_id c₁
          rw [hdi] at this
          exact hro₁.trans this
        have hr₂ : r₂ = describeInstSpec c.aws cfg.instance_id := by
          have : r₂ = describeInstSpec c₁.aws cfg.instance_id := hres
          rw [this, hro₁.1]
        cases r₂ with
        | error e => simp [M.bind, hdi, ← hr₂, hro₂]
        | ok inst =>
            rw [← hr₂]
            by_cases hleg : legacyType inst.instanceType <;>
              simp [M.bind, hdi, hleg, pure_def, M.pure, hro₂]

/-- `pre_checks` is read-only, never raises, and returns
`preChecksResSpec`: the handler converts a malformed-instance-id error to
`False` and any other client error to the implicit `None`. -/
theorem pre_checks_spec (cfg : Cfg) (c : Ctx) :
    (pre_checks cfg c).1 = Except.ok (preChecksResSpec c.aws cfg.instance_id) ∧
    ReadOnly c (pre_checks cfg c).2 := by
  simp only [pre_checks, preChecksResSpec]
  rcases hb : preChecksBody cfg c with ⟨r, c₁⟩
  have hspec := preChecksBody_spec cfg c
  rw [hb] at hspec
  have hr : r = preChecksSpec c.aws cfg.instance_id := hspec.1
  have hro : ReadOnly c c₁ := hspec.2
  cases r with
  | ok b => simp [← hr, hro]
  | error e =>
      obtain ⟨code, rfl⟩ := preChecksSpec_error c.aws cfg.instance_id e (hr ▸ rfl)
      rw [← hr]
      by_cases hc : code == "InvalidInstanceID.Malformed" <;> simp [hc, hro]

/-- `EncryptEC2.init` is read-only; it returns the failed-pre-checks
object unless the pre-checks returned `True`. -/
theorem init_spec (iid key : String) (c : Ctx)
    (h : preChecksResSpec c.aws iid ≠ some true) :
    ∃ c₁, EncryptEC2.init iid key c = (Except.ok ⟨mkCfg iid key, false, none⟩, c₁) ∧
      ReadOnly c c₁ := by
  simp only [EncryptEC2.init, bind_def, M.bind]
  rcases hp : pre_checks (mkCfg iid key) c with ⟨r, c₁⟩
  have hspec := pre_checks_spec (mkCfg iid key) c
  rw [hp] at hspec
  have hr : r = Except.ok (preChecksResSpec c.aws iid) := hspec.1
  subst hr
  refine ⟨c₁, ?_, hspec.2⟩
  rcases hres : preChecksResSpec c.aws iid with _ | b
  · simp [hres, pure_def, M.pure]
  · cases b with
    | false => simp [hres, pure_def, M.pure]
    | true => exact absurd hres h

/-- `start_encryption` is the identity when the pre-checks failed. -/
theorem start_encryption_skip (e : EncryptEC2) (c : Ctx)
    (h : e.pre_checks_passed = false) :
    start_encryption e c = (Except.ok (), c) := by
  simp [start_encryption, h, pure_def, M.pure]

/-- When the pre-checks do not return `True`, the whole program run is
read-only. -/
theorem run_skip_readonly (iid key : String) (c : Ctx)
    (h : preChecksResSpec c.aws iid ≠ some true) :
    ∃ c', runEncryptEC2 iid key c = (Except.ok (), c') ∧ ReadOnly c c' := by
  obtain ⟨c₁, hinit, hro⟩ := init_spec iid key c h
  refine ⟨c₁, ?_, hro⟩
  simp only [runEncryptEC2, bind_def, M.bind, hinit]
  exact start_encryption_skip _ _ rfl

/-- A read-only extension has only non-mutating calls in its trace delta. -/
theorem ReadOnly.delta_not_mutating {c c' : Ctx} (h : ReadOnly c c') :
    ∀ a ∈ c'.trace.drop c.trace.length, a.isMutating = false := by
  obtain ⟨_, Δ, ht, hm⟩ := h
  intro a ha
  rw [ht, List.drop_left] at ha
  exact hm a ha

/-! ## C8: discovery is idempotent and side-effect free -/

/-- C8: calling `get_ebs_list` twice in a row against the same unchanged
provider state returns the identical volume list both times, and the
listing performs no side effect on the provider state. -/
theorem c8_get_ebs_list_idempotent (cfg : Cfg) (c : Ctx) :
    (get_ebs_list cfg c).2.aws = c.aws ∧
    (get_ebs_list cfg ((get_ebs_list cfg c).2)).1 = (get_ebs_list cfg c).1 := by
  have h1 := get_ebs_list_spec cfg c
  have h2 := get_ebs_list_spec cfg (get_ebs_list cfg c).2
  exact ⟨h1.2.1, by rw [h2.1, h1.2.1, h1.1]⟩

/-! ## C4: nothing to do means skip and no mutation -/

/-- C4: when the unencrypted-volume listing is empty, the pre-check
returns the failing result `False` and the whole program run issues no
mutating API call. -/
theorem c4_all_encrypted_skips (iid key : String) (c : Ctx)
    (h : ebsSpec c.aws iid = Except.ok []) :
    (pre_checks (mkCfg iid key) c).1 = Except.ok (some false) ∧
    ∀ a ∈ (runEncryptEC2 iid key c).2.trace.drop c.trace.length,
      a.isMutating = false := by
  have hres : preChecksResSpec c.aws iid = some false := by
    unfold preChecksResSpec preChecksSpec
    simp [h]
  constructor
  · rw [(pre_checks_spec (mkCfg iid key) c).1]
    exact congrArg Except.ok hres
  · obtain ⟨c', hrun, hro⟩ := run_skip_readonly iid key c (by simp [hres])
    rw [hrun]
    exact hro.delta_not_mutating

/-- Witness for C4 on a state where both volumes are encrypted. -/
theorem c4_all_encrypted_skips_witness :
    (pre_checks (mkCfg "i-1" "key") ⟨awsAllEnc, []⟩).1 = Except.ok (some false) :=
  (c4_all_encrypted_skips "i-1" "key" ⟨awsAllEnc, []⟩ (by decide)).1

/-! ## C5: legacy instance type means skip and no mutation -/

/-- C5: when the instance's type belongs to the disallowed legacy family,
the pre-check returns a failing (non-`True`) result regardless of the
encryption state of the volumes, and the whole program run issues no
mutating API call. -/
theorem c5_legacy_type_skips (iid key : String) (c : Ctx) (inst : Ec2Instance)
    (hInst : findInstance c.aws iid = some inst)
    (hleg : legacyType inst.instanceType = true) :
    (∃ r, (pre_checks (mkCfg iid key) c).1 = Except.ok r ∧ r ≠ some true) ∧
    ∀ a ∈ (runEncryptEC2 iid key c).2.trace.drop c.trace.length,
      a.isMutating = false := by
  have hspec : preChecksSpec c.aws iid ≠ Except.ok true := by
    unfold preChecksSpec
    rcases he : ebsSpec c.aws iid with e | ebs
    · simp
    · by_cases hemp : ebs.isEmpty
      · simp [hemp]
      · simp [hemp, describeInstSpec, hInst, hleg]
  have hres : preChecksResSpec c.aws iid ≠ some true := by
    unfold preChecksResSpec
    rcases hs : preChecksSpec c.aws iid with e | b
    · cases e with
      | clientError code =>
          by_cases hc : (code == "InvalidInstanceID.Malformed") = true <;> simp [hc]
      | waiterError k => simp
    · cases b with
      | false => simp
      | true => exact absurd hs hspec
  constructor
  · exact ⟨preChecksResSpec c.aws iid, (pre_checks_spec (mkCfg iid key) c).1, hres⟩
  · obtain ⟨c', hrun, hro⟩ := run_skip_readonly iid key c hres
    rw [hrun]
    exact hro.delta_not_mutating

/-- Witness for C5 on a state whose instance has type `m1.small` and
still has an unencrypted volume. -/
theorem c5_legacy_type_skips_witness :
    ∃ r, (pre_checks (mkCfg "i-1" "key") ⟨awsLegacy, []⟩).1 = Except.ok r ∧
      r ≠ some true :=
  (c5_legacy_type_skips "i-1" "key" ⟨awsLegacy, []⟩
    { demoInst with instanceType := "m1.small" } (by decide) (by decide)).1

/-! ## C7: an unhandled client error during pre-checks fails closed -/

/-- C7: a provider error during the pre-checks whose code is not the
malformed-instance-id code makes `pre_checks` fall through and return
Python's `None` instead of re-raising; the constructor then treats the
pre-check as failed, and the program run issues no mutating API call. -/
theorem c7_unhandled_error_fails_closed (iid key : String) (c c₁ : Ctx) (code : String)
    (hbody : preChecksBody (mkCfg iid key) c = (Except.error (Err.clientError code), c₁))
    (hcode : code ≠ "InvalidInstanceID.Malformed") :
    pre_checks (mkCfg iid key) c = (Except.ok none, c₁) ∧
    EncryptEC2.init iid key c = (Except.ok ⟨mkCfg iid key, false, none⟩, c₁) ∧
    runEncryptEC2 iid key c = (Except.ok (), c₁) ∧
    ∀ a ∈ c₁.trace.drop c.trace.length, a.isMutating = false := by
  have hb : (code == "InvalidInstanceID.Malformed") = false := by
    simp [hcode]
  have h1 : pre_checks (mkCfg iid key) c = (Except.ok none, c₁) := by
    simp [pre_checks, hbody, hb]
  have h2 : EncryptEC2.init iid key c = (Except.ok ⟨mkCfg iid key, false, none⟩, c₁) := by
    simp [EncryptEC2.init, bind_def, M.bind, h1, pure_def, M.pure]
  have h3 : runEncryptEC2 iid key c = (Except.ok (), c₁) := by
    simp only [runEncryptEC2, bind_def, M.bind, h2]
    exact start_encryption_skip _ _ rfl
  have hro : ReadOnly c c₁ := by
    have h := (preChecksBody_spec (mkCfg iid key) c).2
    rw [hbody] at h
    exact h
  exact ⟨h1, h2, h3, hro.delta_not_mutating⟩

/-- Witness for C7 with a well-formed but unknown instance id, whose
describe call raises the not-found (not the malformed) code. -/
theorem c7_unhandled_error_fails_closed_witness :
    pre_checks (mkCfg "i-404" "key") demoCtx =
      (Except.ok none, ⟨demoAws, [ApiCall.describeInstances ["i-404"]]⟩) :=
  (c7_unhandled_error_fails_closed "i-404" "key" demoCtx
    ⟨demoAws, [ApiCall.describeInstances ["i-404"]]⟩
    "InvalidInstanceID.NotFound" (by rfl) (by decide)).1

/-! ## C6: stop-wait timeout aborts before any detach -/

/-- When the instance-stopped waiter needs more polls than the maximum,
`stop_instance` raises `WaiterError` after issuing only the stop request
and the failed poll. -/
theorem stop_instance_timeout (cfg : Cfg) (c : Ctx)
    (h : cfg.max_attempts < c.aws.stopPolls) :
    stop_instance cfg c =
      (Except.error (Err.waiterError "instance_stopped"),
       ⟨c.aws, c.trace ++ [ApiCall.stopInstances [cfg.instance_id],
                           ApiCall.waitOp "instance_stopped" [cfg.instance_id]]⟩) := by
  have hn : ¬ c.aws.stopPolls ≤ cfg.max_attempts := Nat.not_le.mpr h
  simp [stop_instance, bind_def, M.bind, api_stop_instances, M.record,
        waitInstanceStopped, waiterWait, hn]

/-- C6: when the wait for the stopped state exceeds the configured
maximum attempts, `start_encryption` aborts with the stop-waiter timeout
error, and the only mutating call ever issued is the stop request itself:
in particular no detach, tag-creation, snapshot, volume-creation, attach,
start or delete request is made. -/
theorem c6_stop_timeout_aborts (e : EncryptEC2) (c : Ctx) (vols : List Volume)
    (det : Ec2Instance)
    (hp : e.pre_checks_passed = true)
    (hd : e.ec2_details = some det)
    (hebs : ebsSpec c.aws e.cfg.instance_id = Except.ok vols)
    (htime : e.cfg.max_attempts < c.aws.stopPolls) :
    (start_encryption e c).1 = Except.error (Err.waiterError "instance_stopped") ∧
    ∀ a ∈ (start_encryption e c).2.trace.drop c.trace.length,
      a.isMutating = true → a = ApiCall.stopInstances [e.cfg.instance_id] := by
  rcases hg : get_ebs_list e.cfg c with ⟨r₁, c₁⟩
  have hspec := get_ebs_list_spec e.cfg c
  rw [hg] at hspec
  have hr₁ : r₁ = Except.ok vols := by
    have : r₁ = ebsSpec c.aws e.cfg.instance_id := hspec.1
    rw [this, hebs]
  subst hr₁
  have hro₁ : ReadOnly c c₁ := hspec.2
  have hstop := stop_instance_timeout e.cfg c₁ (by rw [hro₁.1]; exact htime)
  have hse : start_encryption e c =
      (Except.error (Err.waiterError "instance_stopped"),
       ⟨c₁.aws, c₁.trace ++ [ApiCall.stopInstances [e.cfg.instance_id],
                             ApiCall.waitOp "instance_stopped" [e.cfg.instance_id]]⟩) := by
    simp [start_encryption, hp, bind_def, M.bind, hg, get_az, hd, hstop]
  rw [hse]
  refine ⟨rfl, ?_⟩
  obtain ⟨haws, Δ, ht, hm⟩ := hro₁
  intro a ha hmut
  simp only [ht, List.append_assoc] at ha
  rw [List.drop_left] at ha
  rcases List.mem_append.mp ha with h₁ | h₂
  · exact absurd hmut (by simp [hm a h₁])
  · simp only [List.mem_cons, List.not_mem_nil, or_false] at h₂
    rcases h₂ with rfl | rfl
    · rfl
    · exact absurd hmut (by simp [ApiCall.isMutating])

/-- Witness for C6 on a state whose stop waiter needs 61 polls. -/
theorem c6_stop_timeout_aborts_witness :
    (start_encryption ⟨mkCfg "i-1" "key", true, some demoInst⟩ ⟨awsStopTimeout, []⟩).1 =
      Except.error (Err.waiterError "instance_stopped") :=
  (c6_stop_timeout_aborts ⟨mkCfg "i-1" "key", true, some demoInst⟩ ⟨awsStopTimeout, []⟩
    [demoVol] demoInst rfl rfl (by decide) (by decide)).1

/-! ## Characterization of `create_snapshots` -/

/-- The volume found under an id carries that id. -/
theorem findVolume_id {aws : AwsState} {vid : String} {v : Volume}
    (h : findVolume aws vid = some v) : v.volumeId = vid := by
  have := List.find?_some h
  simpa using this

/-- The snapshot found under an id carries that id. -/
theorem findSnapshot_id {aws : AwsState} {sid : String} {s : Snapshot}
    (h : findSnapshot aws sid = some s) : s.snapshotId = sid := by
  have := List.find?_some h
  simpa using this

/-- Characterization of a successful `create_snapshots` run: every input
volume id resolves to a volume, the returned snapshot ids are the next
ids of the supply in order, the state gains one snapshot per input volume
carrying that volume's non-reserved tags, and the trace gains exactly one
snapshot-creation request (plus one waiter poll) per input volume, in
input order. -/
theorem create_snapshots_ok (cfg : Cfg) (vids : List String) (c : Ctx)
    (ss : List String) (c' : Ctx)
    (h : create_snapshots cfg vids c = (Except.ok ss, c')) :
    ∃ vols : List Volume,
      List.Forall₂ (fun vid v => findVolume c.aws vid = some v) vids vols ∧
      ss = c.aws.snapIdSupply.take vids.length ∧
      ss.length = vids.length ∧
      c'.aws = { c.aws with
        snapshots := c.aws.snapshots ++
          List.zipWith (fun sid v => Snapshot.mk sid v.volumeId (dropAwsTags v.tags)) ss vols,
        snapIdSupply := c.aws.snapIdSupply.drop vids.length } ∧
      c'.trace = c.trace ++
        (List.zipWith (fun sid (v : Volume) =>
          [ApiCall.createSnapshot v.volumeId (dropAwsTags v.tags) sid,
           ApiCall.waitOp "snapshot_completed" [sid]]) ss vols).flatten := by
  induction vids generalizing c ss c' with
  | nil =>
      simp only [create_snapshots, pure_def, M.pure] at h
      injection h with h1 h2
      injection h1 with h1
      subst h1 h2
      exact ⟨[], List.Forall₂.nil, by simp, by simp, by simp, by simp⟩
  | cons vid rest ih =>
      simp only [create_snapshots, bind_def, M.bind] at h
      rcases hfv : findVolume c.aws vid with _ | v
      · have hvt : volumeTags vid c =
            (Except.error (Err.clientError "InvalidVolume.NotFound"), c) := by
          simp [volumeTags, hfv]
        simp only [hvt] at h
        simp at h
      have hvt : volumeTags vid c = (Except.ok v.tags, c) := by
        simp [volumeTags, hfv]
      simp only [hvt] at h
      rcases hsup : c.aws.snapIdSupply with _ | ⟨sid, supRest⟩
      · have hcs : api_create_snapshot vid (dropAwsTags v.tags) c =
            (Except.error (Err.clientError "SnapshotLimitExceeded"),
             { c with trace := c.trace ++
                 [ApiCall.createSnapshot vid (dropAwsTags v.tags) ""] }) := by
          simp [api_create_snapshot, hsup]
        simp only [hcs] at h
        simp at h
      have hcs : api_create_snapshot vid (dropAwsTags v.tags) c =
          (Except.ok sid,
           ⟨{ c.aws with
                snapshots := c.aws.snapshots ++ [⟨sid, vid, dropAwsTags v.tags⟩],
                snapIdSupply := supRest },
            c.trace ++ [ApiCall.createSnapshot vid (dropAwsTags v.tags) sid]⟩) := by
        simp [api_create_snapshot, hsup]
      simp only [hcs] at h
      by_cases hw : c.aws.snapDonePolls ≤ cfg.max_attempts
      · have hwt : ∀ ctr : List ApiCall, waitSnapshotCompleted sid cfg.delay cfg.max_attempts
            ⟨{ c.aws with
                 snapshots := c.aws.snapshots ++ [⟨sid, vid, dropAwsTags v.tags⟩],
                 snapIdSupply := supRest }, ctr⟩ =
            (Except.ok (),
             ⟨{ c.aws with
                  snapshots := c.aws.snapshots ++ [⟨sid, vid, dropAwsTags v.tags⟩],
                  snapIdSupply := supRest },
              ctr ++ [ApiCall.waitOp "snapshot_completed" [sid]]⟩) := by
          intro ctr
          simp [waitSnapshotCompleted, waiterWait, hw]
        simp only [hwt] at h
        rcases hrec : create_snapshots cfg rest
            ⟨{ c.aws with
                 snapshots := c.aws.snapshots ++ [⟨sid, vid, dropAwsTags v.tags⟩],
                 snapIdSupply := supRest },
             c.trace ++ [ApiCall.createSnapshot vid (dropAwsTags v.tags) sid] ++
               [ApiCall.waitOp "snapshot_completed" [sid]]⟩ with ⟨r₄, c₄⟩
        simp only [hrec] at h
        cases r₄ with
        | error e => simp at h
        | ok rest_ss =>
            simp only [pure_def, M.pure] at h
            injection h with h1 h2
            injection h1 with h1
            subst h1 h2
            obtain ⟨vols', hfa, hss, hlen, haws, htr⟩ :=
              ih _ _ _ hrec
            refine ⟨v :: vols', List.Forall₂.cons hfv hfa, ?_, ?_, ?_, ?_⟩
            · simp [hss]
            · simp [hlen]
            · rw [haws]
              simp [findVolume_id hfv, List.append_assoc]
            · rw [htr]
              simp [findVolume_id hfv, List.append_assoc]
      · have hwt : waitSnapshotCompleted sid cfg.delay cfg.max_attempts
            ⟨{ c.aws with
                 snapshots := c.aws.snapshots ++ [⟨sid, vid, dropAwsTags v.tags⟩],
                 snapIdSupply := supRest },
             c.trace ++ [ApiCall.createSnapshot vid (dropAwsTags v.tags) sid]⟩ =
            (Except.error (Err.waiterError "snapshot_completed"),
             ⟨{ c.aws with
                  snapshots := c.aws.snapshots ++ [⟨sid, vid, dropAwsTags v.tags⟩],
                  snapIdSupply := supRest },
              c.trace ++ [ApiCall.createSnapshot vid (dropAwsTags v.tags) sid] ++
                [ApiCall.waitOp "snapshot_completed" [sid]]⟩) := by
          simp [waitSnapshotCompleted, waiterWait, hw]
        simp only [hwt] at h
        simp at h

/-! ## C3: tag round-trip onto snapshots -/

/-- Pairing helper: a member of the left list of a `Forall₂`, together
with a third list of the same length, yields a snapshot-creation entry in
the zipped request list. -/
theorem createSnapshot_call_mem {R : String → Volume → Prop}
    {vids : List String} {vols : List Volume} :
    List.Forall₂ R vids vols →
    ∀ (ss : List String), ss.length = vids.length →
    ∀ vid ∈ vids, ∃ sid v, R vid v ∧
      ApiCall.createSnapshot v.volumeId (dropAwsTags v.tags) sid ∈
        (List.zipWith (fun sid (v : Volume) =>
          [ApiCall.createSnapshot v.volumeId (dropAwsTags v.tags) sid,
           ApiCall.waitOp "snapshot_completed" [sid]]) ss vols).flatten := by
  intro hfa
  induction hfa with
  | nil => intro ss _ vid hmem; cases hmem
  | @cons vid' v' vids' vols' hr hrest ih =>
      intro ss hlen vid hmem
      cases ss with
      | nil => simp at hlen
      | cons sid ssRest =>
          simp only [List.length_cons] at hlen
          rcases List.mem_cons.mp hmem with rfl | hmem'
          · exact ⟨sid, v', hr, by simp⟩
          · obtain ⟨sid', v'', hR, hmem''⟩ := ih ssRest (by omega) vid hmem'
            exact ⟨sid', v'', hR, by simp [hmem'']⟩

/-- C3: when `create_snapshots` snapshots a volume, every tag of the
volume whose key starts with the reserved prefix `aws` is excluded from
the snapshot-creation request, and the requested tags are exactly the
volume's remaining tags, each with unchanged key and value. -/
theorem c3_snapshot_tag_roundtrip (cfg : Cfg) (vids : List String) (c : Ctx)
    (ss : List String) (c' : Ctx) (vid : String) (v : Volume)
    (h : create_snapshots cfg vids c = (Except.ok ss, c'))
    (hmem : vid ∈ vids)
    (hfv : findVolume c.aws vid = some v) :
    ∃ sid tg,
      ApiCall.createSnapshot vid tg sid ∈ c'.trace ∧
      (∀ t ∈ tg, strStartsWith t.key "aws" = false ∧ t ∈ v.tags) ∧
      (∀ t ∈ v.tags, strStartsWith t.key "aws" = false → t ∈ tg) := by
  obtain ⟨vols, hfa, hss, hlen, haws, htr⟩ := create_snapshots_ok cfg vids c ss c' h
  obtain ⟨sid, v', hR, hmemtr⟩ := createSnapshot_call_mem hfa ss hlen vid hmem
  have hv : v' = v := Option.some.inj (hR.symm.trans hfv)
  subst hv
  refine ⟨sid, dropAwsTags v'.tags, ?_, ?_, ?_⟩
  · rw [htr, ← findVolume_id hR]
    exact List.mem_append_right _ hmemtr
  · intro t ht
    have := List.mem_filter.mp ht
    exact ⟨by simpa using this.2, this.1⟩
  · intro t ht hk
    exact List.mem_filter.mpr ⟨ht, by simp [hk]⟩

/-- Witness for C3: snapshotting `vol-1` of the demo state drops its
`aws:created` tag and keeps its `Name` tag. -/
theorem c3_snapshot_tag_roundtrip_witness :
    ∃ sid tg,
      ApiCall.createSnapshot "vol-1" tg sid ∈ snapDemoOut.trace ∧
      (∀ t ∈ tg, strStartsWith t.key "aws" = false ∧ t ∈ demoVol.tags) ∧
      (∀ t ∈ demoVol.tags, strStartsWith t.key "aws" = false → t ∈ tg) :=
  c3_snapshot_tag_roundtrip (mkCfg "i-1" "key") ["vol-1"] demoCtx ["snap-1"]
    snapDemoOut "vol-1" demoVol (by rfl) (by decide) (by rfl)

/-! ## C10: missing correlation tags degrade to the empty string -/

/-- Python's last-match fold returns the initial value when no tag
carries the key. -/
theorem lastTagValue_of_no_key (tags : List Tag) (k init : String)
    (h : ∀ t ∈ tags, t.key ≠ k) : lastTagValue tags k init = init := by
  induction tags generalizing init with
  | nil => rfl
  | cons t ts ih =>
      have hk : (t.key == k) = false := by
        simpa using h t (List.mem_cons_self t ts)
      simp only [lastTagValue, List.foldl_cons, hk, Bool.false_eq_true, if_false]
      exact ih init (fun t' ht' => h t' (List.mem_cons_of_mem _ ht'))

/-- C10: a snapshot without a `volume-type` tag yields a volume-creation
request with the empty-string volume type, and a volume without a
`device-name` tag yields an attach request at the empty-string device; in
both cases the operation still succeeds on the item rather than skipping
it or raising a missing-tag error. -/
theorem c10_missing_tags_use_empty_string :
    (∀ (cfg : Cfg) (az sid : String) (s : Snapshot) (c : Ctx),
      findSnapshot c.aws sid = some s →
      (∀ t ∈ s.tags, t.key ≠ "volume-type") →
      c.aws.volIdSupply ≠ [] →
      c.aws.volAvailPolls ≤ cfg.max_attempts →
      ∃ nvid c', create_volume cfg az [sid] c = (Except.ok [nvid], c') ∧
        ApiCall.createVolume az true cfg.key sid "" s.tags nvid ∈ c'.trace) ∧
    (∀ (cfg : Cfg) (vid : String) (v : Volume) (c : Ctx),
      findVolume c.aws vid = some v →
      (∀ t ∈ v.tags, t.key ≠ "device-name") →
      ∃ c', attach_volume cfg [vid] c = (Except.ok true, c') ∧
        ApiCall.attachVolume "" cfg.instance_id vid ∈ c'.trace) := by
  constructor
  · intro cfg az sid s c hfs hnok hsup hpoll
    rcases hsupe : c.aws.volIdSupply with _ | ⟨nvid, supRest⟩
    · exact absurd hsupe hsup
    have hvt : lastTagValue s.tags "volume-type" "" = "" :=
      lastTagValue_of_no_key _ _ _ hnok
    refine ⟨nvid,
      ⟨{ c.aws with
           volumes := c.aws.volumes ++ [⟨nvid, "", true, s.tags, []⟩],
           volIdSupply := supRest },
       c.trace ++ [ApiCall.createVolume az true cfg.key sid "" s.tags nvid,
                   ApiCall.waitOp "volume_available" [nvid]]⟩, ?_, by simp⟩
    simp [create_volume, bind_def, M.bind, snapshotTags, hfs, hvt,
          api_create_volume, hsupe, waitVolumeAvailable, waiterWait, hpoll,
          pure_def, M.pure]
  · intro cfg vid v c hfv hnok
    have hdt : lastTagValue v.tags "device-name" "" = "" :=
      lastTagValue_of_no_key _ _ _ hnok
    refine ⟨⟨{ c.aws with
                 volumes := c.aws.volumes.map (fun w =>
                   if w.volumeId == vid then
                     { w with attachments := w.attachments ++ [⟨"", cfg.instance_id⟩] }
                   else w),
                 instances := c.aws.instances.map (fun i =>
                   if i.instanceId == cfg.instance_id then
                     { i with blockDeviceMappings := i.blockDeviceMappings ++ [vid] }
                   else i) },
             c.trace ++ [ApiCall.attachVolume "" cfg.instance_id vid]⟩, ?_, by simp⟩
    simp [attach_volume, bind_def, M.bind, volumeTags, hfv, hdt,
          api_attach_volume, pure_def, M.pure]

/-- Witness for C10: a tagless-but-named snapshot gets volume type `""`,
and the untagged `vol-2` gets attached at device `""`. -/
theorem c10_missing_tags_use_empty_string_witness :
    (∃ nvid c', create_volume (mkCfg "i-1" "key") "us-east-1a" ["snap-x"]
        ⟨awsSnapX, []⟩ = (Except.ok [nvid], c') ∧
      ApiCall.createVolume "us-east-1a" true "key" "snap-x" "" snapX.tags nvid ∈ c'.trace) ∧
    (∃ c', attach_volume (mkCfg "i-1" "key") ["vol-2"] demoCtx = (Except.ok true, c') ∧
      ApiCall.attachVolume "" "i-1" "vol-2" ∈ c'.trace) :=
  ⟨c10_missing_tags_use_empty_string.1 (mkCfg "i-1" "key") "us-east-1a" "snap-x"
      snapX ⟨awsSnapX, []⟩ (by rfl) (by decide) (by decide) (by decide),
   c10_missing_tags_use_empty_string.2 (mkCfg "i-1" "key") "vol-2"
      demoVolEnc demoCtx (by rfl) (by decide)⟩

/-! ## Characterization of `detach_volume` -/

/-- Characterization of a successful run of `detach_volume`'s loop: per
item one create-tags call, one detach call and one waiter poll, in order,
and the provider volumes transformed pointwise by `detStep`. -/
theorem detachLoop_ok (cfg : Cfg) (items : List Volume) (c c' : Ctx)
    (h : detachLoop cfg items c = (Except.ok (), c')) :
    ∃ insts snaps,
      c'.aws = { c.aws with
        instances := insts,
        snapshots := snaps,
        volumes := items.foldl
          (fun vs item => vs.map (detStep cfg.instance_id item)) c.aws.volumes } ∧
      snaps.map Snapshot.snapshotId = c.aws.snapshots.map Snapshot.snapshotId ∧
      c'.trace = c.trace ++ items.flatMap (fun item =>
        [ApiCall.createTags [item.volumeId] [devTag item, typTag item],
         ApiCall.detachVolume cfg.instance_id item.volumeId,
         ApiCall.waitOp "volume_available" [item.volumeId]]) := by
  induction items generalizing c with
  | nil =>
      simp only [detachLoop, pure_def, M.pure] at h
      injection h with h1 h2
      subst h2
      exact ⟨c.aws.instances, c.aws.snapshots, by simp, rfl, by simp⟩
  | cons item rest ih =>
      simp only [detachLoop, bind_def, M.bind, api_create_tags, api_detach_volume] at h
      by_cases hw : c.aws.volAvailPolls ≤ cfg.max_attempts
      · simp only [waitVolumeAvailable, waiterWait, hw, if_true] at h
        rcases hrec : detachLoop cfg rest
            ⟨{ c.aws with
                 volumes := (c.aws.volumes.map (fun v =>
                   if [item.volumeId].contains v.volumeId then
                     { v with tags := upsertTags v.tags [devTag item, typTag item] }
                   else v)).map (fun v =>
                     if v.volumeId == item.volumeId then
                       { v with attachments :=
                           v.attachments.filter (fun a => !(a.instanceId == cfg.instance_id)) }
                     else v),
                 snapshots := c.aws.snapshots.map (fun s =>
                   if [item.volumeId].contains s.snapshotId then
                     { s with tags := upsertTags s.tags [devTag item, typTag item] }
                   else s),
                 instances := c.aws.instances.map (fun i =>
                   if i.instanceId == cfg.instance_id then
                     { i with blockDeviceMappings :=
                         i.blockDeviceMappings.filter (fun x => !(x == item.volumeId)) }
                   else i) },
             c.trace ++ [ApiCall.createTags [item.volumeId] [devTag item, typTag item]] ++
               [ApiCall.detachVolume cfg.instance_id item.volumeId] ++
               [ApiCall.waitOp "volume_available" [item.volumeId]]⟩ with ⟨r₂, c₂⟩
        rw [hrec] at h
        cases r₂ with
        | error e => simp at h
        | ok u =>
            injection h with h1 h2
            subst h2
            obtain ⟨insts', snaps', haws, hsnapids, htr⟩ := ih _ hrec
            refine ⟨insts', snaps', ?_, ?_, ?_⟩
            · rw [haws]
              simp only [List.foldl_cons, List.map_map]
              rfl
            · rw [hsnapids]
              rw [List.map_map]
              apply List.map_congr_left
              intro s _
              simp only [Function.comp]
              split <;> rfl
            · rw [htr]
              simp [List.append_assoc]
      · simp only [waitVolumeAvailable, waiterWait, hw, if_false] at h
        simp at h

/-- Characterization of a successful `detach_volume`: it re-lists the
unencrypted volumes read-only, then runs the loop on exactly that list. -/
theorem detach_volume_ok (cfg : Cfg) (c c' : Ctx)
    (h : detach_volume cfg c = (Except.ok (), c')) :
    ∃ vols Δe insts snaps,
      ebsSpec c.aws cfg.instance_id = Except.ok vols ∧
      (∀ a ∈ Δe, a.isMutating = false) ∧
      c'.aws = { c.aws with
        instances := insts,
        snapshots := snaps,
        volumes := vols.foldl
          (fun vs item => vs.map (detStep cfg.instance_id item)) c.aws.volumes } ∧
      snaps.map Snapshot.snapshotId = c.aws.snapshots.map Snapshot.snapshotId ∧
      c'.trace = c.trace ++ Δe ++ vols.flatMap (fun item =>
        [ApiCall.createTags [item.volumeId] [devTag item, typTag item],
         ApiCall.detachVolume cfg.instance_id item.volumeId,
         ApiCall.waitOp "volume_available" [item.volumeId]]) := by
  simp only [detach_volume, bind_def, M.bind] at h
  rcases hg : get_ebs_list cfg c with ⟨r₁, c₁⟩
  rw [hg] at h
  have hspec := get_ebs_list_spec cfg c
  rw [hg] at hspec
  cases r₁ with
  | error e => simp at h
  | ok vols =>
      obtain ⟨haws₁, Δe, htr₁, hmut₁⟩ := hspec.2
      obtain ⟨insts, snaps, haws, hsnapids, htr⟩ := detachLoop_ok cfg vols c₁ c' h
      refine ⟨vols, Δe, insts, snaps, hspec.1.symm, hmut₁, ?_, ?_, ?_⟩
      · rw [haws, haws₁]
      · rw [hsnapids, haws₁]
      · rw [htr, htr₁, List.append_assoc]

/-! ## Characterization of `create_volume` -/

/-- Characterization of a successful `create_volume` run: every input
snapshot id resolves to a snapshot, the new volume ids are the next ids
of the supply in order, the state gains one encrypted volume per
snapshot (typed from the snapshot's `volume-type` tag, carrying all the
snapshot's tags, initially unattached), and the trace gains exactly one
volume-creation request (plus one waiter poll) per snapshot, in order. -/
theorem create_volume_ok (cfg : Cfg) (az : String) (sids : List String) (c : Ctx)
    (nvids : List String) (c' : Ctx)
    (h : create_volume cfg az sids c = (Except.ok nvids, c')) :
    ∃ snaps : List Snapshot,
      List.Forall₂ (fun sid s => findSnapshot c.aws sid = some s) sids snaps ∧
      nvids = c.aws.volIdSupply.take sids.length ∧
      nvids.length = sids.length ∧
      c'.aws = { c.aws with
        volumes := c.aws.volumes ++
          List.zipWith (fun nvid (s : Snapshot) =>
            Volume.mk nvid (lastTagValue s.tags "volume-type" "") true s.tags [])
            nvids snaps,
        volIdSupply := c.aws.volIdSupply.drop sids.length } ∧
      c'.trace = c.trace ++
        (List.zipWith (fun nvid (s : Snapshot) =>
          [ApiCall.createVolume az true cfg.key s.snapshotId
             (lastTagValue s.tags "volume-type" "") s.tags nvid,
           ApiCall.waitOp "volume_available" [nvid]]) nvids snaps).flatten := by
  induction sids generalizing c nvids c' with
  | nil =>
      simp only [create_volume, pure_def, M.pure] at h
      injection h with h1 h2
      injection h1 with h1
      subst h1 h2
      exact ⟨[], List.Forall₂.nil, by simp, by simp, by simp, by simp⟩
  | cons sid rest ih =>
      simp only [create_volume, bind_def, M.bind] at h
      rcases hfs : findSnapshot c.aws sid with _ | s
      · have hst : snapshotTags sid c =
            (Except.error (Err.clientError "InvalidSnapshot.NotFound"), c) := by
          simp [snapshotTags, hfs]
        simp only [hst] at h
        simp at h
      have hst : snapshotTags sid c = (Except.ok s.tags, c) := by
        simp [snapshotTags, hfs]
      simp only [hst] at h
      rcases hsup : c.aws.volIdSupply with _ | ⟨nvid, supRest⟩
      · have hcv : api_create_volume az true cfg.key sid
            (lastTagValue s.tags "volume-type" "") s.tags c =
            (Except.error (Err.clientError "VolumeLimitExceeded"),
             { c with trace := c.trace ++
                 [ApiCall.createVolume az true cfg.key sid
                    (lastTagValue s.tags "volume-type" "") s.tags ""] }) := by
          simp [api_create_volume, hsup]
        simp only [hcv] at h
        simp at h
      have hcv : api_create_volume az true cfg.key sid
          (lastTagValue s.tags "volume-type" "") s.tags c =
          (Except.ok nvid,
           ⟨{ c.aws with
                volumes := c.aws.volumes ++
                  [⟨nvid, lastTagValue s.tags "volume-type" "", true, s.tags, []⟩],
                volIdSupply := supRest },
            c.trace ++ [ApiCall.createVolume az true cfg.key sid
              (lastTagValue s.tags "volume-type" "") s.tags nvid]⟩) := by
        simp [api_create_volume, hsup]
      simp only [hcv] at h
      by_cases hw : c.aws.volAvailPolls ≤ cfg.max_attempts
      · have hwt : ∀ ctr : List ApiCall,
            waitVolumeAvailable nvid cfg.delay cfg.max_attempts
              ⟨{ c.aws with
                   volumes := c.aws.volumes ++
                     [⟨nvid, lastTagValue s.tags "volume-type" "", true, s.tags, []⟩],
                   volIdSupply := supRest }, ctr⟩ =
            (Except.ok (),
             ⟨{ c.aws with
                  volumes := c.aws.volumes ++
                    [⟨nvid, lastTagValue s.tags "volume-type" "", true, s.tags, []⟩],
                  volIdSupply := supRest },
              ctr ++ [ApiCall.waitOp "volume_available" [nvid]]⟩) := by
          intro ctr
          simp [waitVolumeAvailable, waiterWait, hw]
        simp only [hwt] at h
        rcases hrec : create_volume cfg az rest
            ⟨{ c.aws with
                 volumes := c.aws.volumes ++
                   [⟨nvid, lastTagValue s.tags "volume-type" "", true, s.tags, []⟩],
                 volIdSupply := supRest },
             c.trace ++ [ApiCall.createVolume az true cfg.key sid
               (lastTagValue s.tags "volume-type" "") s.tags nvid] ++
               [ApiCall.waitOp "volume_available" [nvid]]⟩ with ⟨r₄, c₄⟩
        simp only [hrec] at h
        cases r₄ with
        | error e => simp at h
        | ok rest_nvids =>
            simp only [pure_def, M.pure] at h
            injection h with h1 h2
            injection h1 with h1
            subst h1 h2
            obtain ⟨snaps', hfa, hnv, hlen, haws, htr⟩ := ih _ _ _ hrec
            refine ⟨s :: snaps', List.Forall₂.cons hfs hfa, ?_, ?_, ?_, ?_⟩
            · simp [hnv]
            · simp [hlen]
            · rw [haws]
              simp [findSnapshot_id hfs, List.append_assoc]
            · rw [htr]
              simp [findSnapshot_id hfs, List.append_assoc]
      · have hwt : waitVolumeAvailable nvid cfg.delay cfg.max_attempts
            ⟨{ c.aws with
                 volumes := c.aws.volumes ++
                   [⟨nvid, lastTagValue s.tags "volume-type" "", true, s.tags, []⟩],
                 volIdSupply := supRest },
             c.trace ++ [ApiCall.createVolume az true cfg.key sid
               (lastTagValue s.tags "volume-type" "") s.tags nvid]⟩ =
            (Except.error (Err.waiterError "volume_available"),
             ⟨{ c.aws with
                  volumes := c.aws.volumes ++
                    [⟨nvid, lastTagValue s.tags "volume-type" "", true, s.tags, []⟩],
                  volIdSupply := supRest },
              c.trace ++ [ApiCall.createVolume az true cfg.key sid
                (lastTagValue s.tags "volume-type" "") s.tags nvid] ++
                [ApiCall.waitOp "volume_available" [nvid]]⟩) := by
          simp [waitVolumeAvailable, waiterWait, hw]
        simp only [hwt] at h
        simp at h

/-! ## Characterization of `attach_volume`, `stop`/`start` and
`delete_snapshots` -/

/-- Finding a volume after an id-preserving pointwise update. -/
theorem findVolume_map (vols : List Volume) (g : Volume → Volume)
    (hg : ∀ v, (g v).volumeId = v.volumeId) (vid : String) :
    (vols.map g).find? (fun v => v.volumeId == vid) =
      (vols.find? (fun v => v.volumeId == vid)).map g := by
  rw [List.find?_map]
  have hpred : ((fun v : Volume => v.volumeId == vid) ∘ g) =
      (fun v : Volume => v.volumeId == vid) := by
    funext v
    simp [Function.comp, hg]
  rw [hpred]

/-- `attachUpd` preserves volume ids. -/
theorem attachUpd_id (device iid vid : String) (v : Volume) :
    (attachUpd device iid vid v).volumeId = v.volumeId := by
  unfold attachUpd
  split <;> rfl

/-- Resolving a list of ids is unaffected by an id-preserving update that
fixes every volume whose id is not the updated one. -/
theorem Forall₂_findVolume_map {aws : AwsState} {g : Volume → Volume}
    (hg : ∀ v, (g v).volumeId = v.volumeId) (x : String)
    (hfix : ∀ w, w.volumeId ≠ x → g w = w) :
    ∀ {vids : List String} {nvs : List Volume},
      List.Forall₂ (fun vid v => findVolume aws vid = some v) vids nvs →
      (∀ vid ∈ vids, vid ≠ x) →
      List.Forall₂ (fun vid v =>
        findVolume { aws with volumes := aws.volumes.map g } vid = some v) vids nvs := by
  intro vids nvs hfa
  induction hfa with
  | nil => exact fun _ => List.Forall₂.nil
  | @cons vid v vids' nvs' hr hrest ih =>
      intro hne
      refine List.Forall₂.cons ?_ (ih (fun u hu => hne u (List.mem_cons_of_mem _ hu)))
      have hmap : findVolume { aws with volumes := aws.volumes.map g } vid =
          (findVolume aws vid).map g := findVolume_map aws.volumes g hg vid
      rw [hmap, hr]
      have hv : g v = v := by
        refine hfix v ?_
        rw [findVolume_id hr]
        exact hne vid (List.mem_cons_self vid vids')
      simp [hv]

/-- Trace-only characterization of a successful `attach_volume`: it
returns `True` and issues exactly one attach request per input volume, in
order, each at some device string. -/
theorem attach_volume_trace (cfg : Cfg) (nvids : List String) (c : Ctx)
    (b : Bool) (c' : Ctx)
    (h : attach_volume cfg nvids c = (Except.ok b, c')) :
    b = true ∧ ∃ devs : List String, devs.length = nvids.length ∧
      c'.trace = c.trace ++ List.zipWith (fun vid dev =>
        ApiCall.attachVolume dev cfg.instance_id vid) nvids devs := by
  induction nvids generalizing c b c' with
  | nil =>
      simp only [attach_volume, pure_def, M.pure] at h
      injection h with h1 h2
      injection h1 with h1
      subst h2
      exact ⟨h1.symm, [], rfl, by simp⟩
  | cons vid rest ih =>
      simp only [attach_volume, bind_def, M.bind] at h
      rcases hfv : findVolume c.aws vid with _ | v
      · have hvt : volumeTags vid c =
            (Except.error (Err.clientError "InvalidVolume.NotFound"), c) := by
          simp [volumeTags, hfv]
        simp only [hvt] at h
        simp at h
      have hvt : volumeTags vid c = (Except.ok v.tags, c) := by
        simp [volumeTags, hfv]
      simp only [hvt, api_attach_volume] at h
      obtain ⟨hb, devs', hlen, htr⟩ := ih _ _ _ h
      refine ⟨hb, lastTagValue v.tags "device-name" "" :: devs', by simp [hlen], ?_⟩
      rw [htr]
      simp [List.append_assoc]

/-- Full characterization of a successful `attach_volume` on distinct
volume ids that all resolve: each listed volume gains exactly one
attachment, at the device read back from its `device-name` tag. -/
theorem attach_volume_ok (cfg : Cfg) :
    ∀ (nvids : List String) (nvs : List Volume) (c : Ctx) (b : Bool) (c' : Ctx),
      attach_volume cfg nvids c = (Except.ok b, c') →
      nvids.Nodup →
      List.Forall₂ (fun vid v => findVolume c.aws vid = some v) nvids nvs →
      ∃ insts,
        c'.aws = { c.aws with
          instances := insts,
          volumes := (List.zip nvids nvs).foldl (fun vs p =>
            vs.map (attachUpd (deviceOf p.2) cfg.instance_id p.1)) c.aws.volumes } ∧
        c'.trace = c.trace ++ (List.zip nvids nvs).map (fun p =>
          ApiCall.attachVolume (deviceOf p.2) cfg.instance_id p.1) := by
  intro nvids
  induction nvids with
  | nil =>
      intro nvs c b c' h hnd hfa
      cases hfa
      simp only [attach_volume, pure_def, M.pure] at h
      injection h with h1 h2
      subst h2
      exact ⟨c.aws.instances, by simp, by simp⟩
  | cons vid rest ih =>
      intro nvs c b c' h hnd hfa
      cases hfa with
      | cons hr hrest =>
          rename_i v nvs'
          simp only [attach_volume, bind_def, M.bind] at h
          have hvt : volumeTags vid c = (Except.ok v.tags, c) := by
            simp [volumeTags, hr]
          simp only [hvt, api_attach_volume] at h
          have hnd' := List.nodup_cons.mp hnd
          have hrest' := Forall₂_findVolume_map
            (attachUpd_id (lastTagValue v.tags "device-name" "") cfg.instance_id vid)
            vid
            (fun w hw => by simp [attachUpd, hw])
            hrest
            (fun u hu => fun he => hnd'.1 (he ▸ hu))
          obtain ⟨insts', haws, htr⟩ := ih nvs' _ _ _ h hnd'.2 hrest'
          refine ⟨insts', ?_, ?_⟩
          · rw [haws]
            simp only [List.zip_cons_cons, List.foldl_cons]
            rfl
          · rw [htr]
            simp [List.append_assoc, deviceOf]

/-- The context `stop_instance` reaches, in both outcomes. -/
theorem stop_instance_ctx (cfg : Cfg) (c : Ctx) :
    (stop_instance cfg c).2 =
      ⟨c.aws, c.trace ++ [ApiCall.stopInstances [cfg.instance_id],
                          ApiCall.waitOp "instance_stopped" [cfg.instance_id]]⟩ := by
  by_cases hw : c.aws.stopPolls ≤ cfg.max_attempts <;>
    simp [stop_instance, bind_def, M.bind, api_stop_instances, M.record,
          waitInstanceStopped, waiterWait, hw]

/-- The context `start_instance` reaches, in both outcomes. -/
theorem start_instance_ctx (cfg : Cfg) (c : Ctx) :
    (start_instance cfg c).2 =
      ⟨c.aws, c.trace ++ [ApiCall.startInstances [cfg.instance_id],
                          ApiCall.waitOp "instance_status_ok" [cfg.instance_id]]⟩ := by
  by_cases hw : c.aws.statusOkPolls ≤ cfg.max_attempts <;>
    simp [start_instance, bind_def, M.bind, api_start_instances, M.record,
          waitStatusOk, waiterWait, hw]

/-- `delete_snapshots` always succeeds, issues one delete request per
snapshot id in order, and touches only the snapshot inventory. -/
theorem delete_snapshots_run (sids : List String) (c : Ctx) :
    ∃ snaps, delete_snapshots sids c =
      (Except.ok (), ⟨{ c.aws with snapshots := snaps },
                      c.trace ++ sids.map ApiCall.deleteSnapshot⟩) := by
  induction sids generalizing c with
  | nil =>
      exact ⟨c.aws.snapshots, by simp [delete_snapshots, pure_def, M.pure]⟩
  | cons sid rest ih =>
      obtain ⟨snaps', hrec⟩ := ih
        ⟨{ c.aws with
             snapshots := c.aws.snapshots.filter (fun s => !(s.snapshotId == sid)) },
         c.trace ++ [ApiCall.deleteSnapshot sid]⟩
      refine ⟨snaps', ?_⟩
      simp only [delete_snapshots, bind_def, M.bind, api_delete_snapshot]
      rw [hrec]
      simp [List.append_assoc]

/-! ## Decomposition of a successful `start_encryption` -/

/-- `get_az` never changes the context. -/
theorem get_az_ctx (e : EncryptEC2) (c : Ctx) : (get_az e c).2 = c := by
  unfold get_az
  rcases e.ec2_details with _ | det <;> rfl

/-- A successful `start_encryption` with passed pre-checks decomposes into
its eight successful sub-steps, run strictly in sequence. -/
theorem start_encryption_steps (e : EncryptEC2) (c c' : Ctx)
    (hp : e.pre_checks_passed = true)
    (h : start_encryption e c = (Except.ok (), c')) :
    ∃ vols c₁ az c₂ c₃ ss c₄ nvids c₅ b c₆ c₇,
      get_ebs_list e.cfg c = (Except.ok vols, c₁) ∧
      get_az e c₁ = (Except.ok az, c₁) ∧
      stop_instance e.cfg c₁ = (Except.ok (), c₂) ∧
      detach_volume e.cfg c₂ = (Except.ok (), c₃) ∧
      create_snapshots e.cfg (vols.map Volume.volumeId) c₃ = (Except.ok ss, c₄) ∧
      create_volume e.cfg az ss c₄ = (Except.ok nvids, c₅) ∧
      attach_volume e.cfg nvids c₅ = (Except.ok b, c₆) ∧
      start_instance e.cfg c₆ = (Except.ok (), c₇) ∧
      delete_snapshots ss c₇ = (Except.ok (), c') := by
  simp only [start_encryption, hp, if_true, bind_def] at h
  obtain ⟨vols, c₁, h1, hA⟩ := (M.bind_ok _ _ _ _ _).mp h
  obtain ⟨az, c₁', h2, hB⟩ := (M.bind_ok _ _ _ _ _).mp hA
  have hc₁ : c₁' = c₁ := by
    have hg := get_az_ctx e c₁
    rw [h2] at hg
    exact hg
  subst hc₁
  obtain ⟨u₂, c₂, h3, hC⟩ := (M.bind_ok _ _ _ _ _).mp hB
  obtain ⟨u₃, c₃, h4, hD⟩ := (M.bind_ok _ _ _ _ _).mp hC
  obtain ⟨ss, c₄, h5, hE⟩ := (M.bind_ok _ _ _ _ _).mp hD
  obtain ⟨nvids, c₅, h6, hF⟩ := (M.bind_ok _ _ _ _ _).mp hE
  obtain ⟨b, c₆, h7, hG⟩ := (M.bind_ok _ _ _ _ _).mp hF
  obtain ⟨u₈, c₇, h8, hH⟩ := (M.bind_ok _ _ _ _ _).mp hG
  exact ⟨vols, c₁', az, c₂, c₃, ss, c₄, nvids, c₅, b, c₆, c₇,
    h1, h2, h3, h4, h5, h6, h7, h8, hH⟩

/-! ## `__init__` success path and list helpers -/

/-- `EncryptEC2.init` is read-only in every outcome. -/
theorem init_readonly (iid key : String) (c : Ctx) :
    ReadOnly c (EncryptEC2.init iid key c).2 := by
  simp only [EncryptEC2.init, bind_def, M.bind]
  rcases hp : pre_checks (mkCfg iid key) c with ⟨r, c₁⟩
  have hspec := pre_checks_spec (mkCfg iid key) c
  rw [hp] at hspec
  have hr : r = Except.ok (preChecksResSpec c.aws iid) := hspec.1
  subst hr
  rcases hres : preChecksResSpec c.aws iid with _ | b
  · simpa [hres, pure_def, M.pure] using hspec.2
  · cases b with
    | false => simpa [hres, pure_def, M.pure] using hspec.2
    | true =>
        simp only [hres]
        rcases hdi : describe_instances iid c₁ with ⟨r₂, c₂⟩
        have hro₂ : ReadOnly c₁ c₂ := by
          have hro := describe_instances_readonly iid c₁
          rwa [hdi] at hro
        simp only [M.bind, hdi]
        cases r₂ with
        | error e => exact hspec.2.trans hro₂
        | ok det => simpa [pure_def, M.pure] using hspec.2.trans hro₂

/-- When all pre-checks succeed, `init` returns the passing object with
the instance details cached, read-only. -/
theorem init_pass (iid key : String) (c : Ctx) (inst : Ec2Instance)
    (hres : preChecksResSpec c.aws iid = some true)
    (hInst : findInstance c.aws iid = some inst) :
    ∃ c₁, EncryptEC2.init iid key c = (Except.ok ⟨mkCfg iid key, true, some inst⟩, c₁) ∧
      ReadOnly c c₁ := by
  simp only [EncryptEC2.init, bind_def, M.bind]
  rcases hp : pre_checks (mkCfg iid key) c with ⟨r, c₁⟩
  have hspec := pre_checks_spec (mkCfg iid key) c
  rw [hp] at hspec
  have hr : r = Except.ok (some true) := by
    have h0 : r = Except.ok (preChecksResSpec c.aws iid) := hspec.1
    rw [h0, hres]
  subst hr
  have hdi : describe_instances iid c₁ =
      (Except.ok inst, ⟨c₁.aws, c₁.trace ++ [ApiCall.describeInstances [iid]]⟩) := by
    rw [describe_instances_eq]
    have : describeInstSpec c₁.aws iid = Except.ok inst := by
      unfold describeInstSpec
      rw [hspec.2.1, hInst]
    rw [this]
  refine ⟨⟨c₁.aws, c₁.trace ++ [ApiCall.describeInstances [iid]]⟩, ?_, ?_⟩
  · simp [M.bind, hdi, pure_def, M.pure]
  · exact hspec.2.trans (readOnly_single c₁ c₁.aws (ApiCall.describeInstances [iid]) rfl rfl)

/-- The pre-checks pass exactly on a findable, non-legacy instance with a
non-empty unencrypted-volume listing. -/
theorem preChecksResSpec_pass (aws : AwsState) (iid : String) (inst : Ec2Instance)
    (vols : List Volume)
    (hInst : findInstance aws iid = some inst)
    (hebs : ebsSpec aws iid = Except.ok vols)
    (hne : vols ≠ [])
    (hleg : legacyType inst.instanceType = false) :
    preChecksResSpec aws iid = some true := by
  unfold preChecksResSpec preChecksSpec
  simp [hebs, describeInstSpec, hInst, hleg, hne]

/-- Membership in a `zipWith` comes from a pair of members. -/
theorem mem_zipWith {α β γ : Type} {a : γ} {f : α → β → γ} :
    ∀ {xs : List α} {ys : List β}, a ∈ List.zipWith f xs ys →
      ∃ x y, x ∈ xs ∧ y ∈ ys ∧ a = f x y := by
  intro xs
  induction xs with
  | nil => intro ys h; simp at h
  | cons x xs ih =>
      intro ys h
      cases ys with
      | nil => simp at h
      | cons y ys =>
          rcases List.mem_cons.mp h with rfl | h'
          · exact ⟨x, y, List.mem_cons_self x xs, List.mem_cons_self y ys, rfl⟩
          · obtain ⟨x', y', hx, hy, he⟩ := ih h'
            exact ⟨x', y', List.mem_cons_of_mem _ hx, List.mem_cons_of_mem _ hy, he⟩

/-- Membership in the flattening of a `zipWith` of call lists. -/
theorem mem_flatten_zipWith {α β : Type} {a : ApiCall} {f : α → β → List ApiCall} :
    ∀ {xs : List α} {ys : List β}, a ∈ (List.zipWith f xs ys).flatten →
      ∃ x y, x ∈ xs ∧ y ∈ ys ∧ a ∈ f x y := by
  intro xs ys h
  rw [List.mem_flatten] at h
  obtain ⟨l, hl, hal⟩ := h
  obtain ⟨x, y, hx, hy, he⟩ := mem_zipWith hl
  exact ⟨x, y, hx, hy, he ▸ hal⟩

/-- Counting over the flattening of a `zipWith` whose chunks each hold
`k` matches. -/
theorem countP_flatten_zipWith {α β : Type} (p : ApiCall → Bool)
    (f : α → β → List ApiCall) (k : Nat) (hk : ∀ x y, (f x y).countP p = k) :
    ∀ (xs : List α) (ys : List β),
      ((List.zipWith f xs ys).flatten).countP p = k * min xs.length ys.length := by
  intro xs
  induction xs with
  | nil => intro ys; simp
  | cons x xs ih =>
      intro ys
      cases ys with
      | nil => simp
      | cons y ys =>
          simp only [List.zipWith_cons_cons, List.flatten_cons, List.countP_append,
            ih ys, hk, List.length_cons]
          rw [Nat.succ_min_succ, Nat.mul_succ]
          omega

/-- Counting in a `zipWith` whose entries never match. -/
theorem countP_zipWith_false {α β : Type} (p : ApiCall → Bool)
    (f : α → β → ApiCall) (hk : ∀ x y, p (f x y) = false)
    (xs : List α) (ys : List β) :
    (List.zipWith f xs ys).countP p = 0 := by
  rw [List.countP_eq_zero]
  intro a ha
  obtain ⟨x, y, _, _, rfl⟩ := mem_zipWith ha
  simp [hk]

/-! ## Trace shape of a successful workflow run -/

/-- Trace shape of a successful `start_encryption` with passed
pre-checks: after two read-only discovery phases and the stop request,
the trace holds one tag/detach/wait triple, one snapshot creation, one
encrypted-volume creation and one attach request per discovered volume,
the start request, and one delete request per created snapshot. -/
theorem start_encryption_trace (e : EncryptEC2) (c₀ c' : Ctx)
    (hp : e.pre_checks_passed = true)
    (hse : start_encryption e c₀ = (Except.ok (), c')) :
    ∃ (vols vols₂ : List Volume) (snaps : List Snapshot)
      (ss nvids devs : List String) (az : String) (Δ₁ Δ₂ : List ApiCall),
      ebsSpec c₀.aws e.cfg.instance_id = Except.ok vols ∧
      (∀ a ∈ Δ₁, a.isMutating = false) ∧
      (∀ a ∈ Δ₂, a.isMutating = false) ∧
      ss.length = vols.length ∧
      vols₂.length = vols.length ∧
      snaps.length = ss.length ∧
      nvids.length = ss.length ∧
      devs.length = nvids.length ∧
      c'.trace = c₀.trace ++ Δ₁ ++
        [ApiCall.stopInstances [e.cfg.instance_id],
         ApiCall.waitOp "instance_stopped" [e.cfg.instance_id]] ++ Δ₂ ++
        vols.flatMap (fun item =>
          [ApiCall.createTags [item.volumeId] [devTag item, typTag item],
           ApiCall.detachVolume e.cfg.instance_id item.volumeId,
           ApiCall.waitOp "volume_available" [item.volumeId]]) ++
        (List.zipWith (fun sid (v : Volume) =>
          [ApiCall.createSnapshot v.volumeId (dropAwsTags v.tags) sid,
           ApiCall.waitOp "snapshot_completed" [sid]]) ss vols₂).flatten ++
        (List.zipWith (fun nvid (s : Snapshot) =>
          [ApiCall.createVolume az true e.cfg.key s.snapshotId
             (lastTagValue s.tags "volume-type" "") s.tags nvid,
           ApiCall.waitOp "volume_available" [nvid]]) nvids snaps).flatten ++
        List.zipWith (fun vid dev => ApiCall.attachVolume dev e.cfg.instance_id vid)
          nvids devs ++
        [ApiCall.startInstances [e.cfg.instance_id],
         ApiCall.waitOp "instance_status_ok" [e.cfg.instance_id]] ++
        ss.map ApiCall.deleteSnapshot := by
  obtain ⟨vols, c₁, az, c₂, c₃, ss, c₄, nvids, c₅, b, c₆, c₇,
    h1, h2, h3, h4, h5, h6, h7, h8, h9⟩ := start_encryption_steps e c₀ c' hp hse
  have hg := get_ebs_list_spec e.cfg c₀
  rw [h1] at hg
  have hebs : ebsSpec c₀.aws e.cfg.instance_id = Except.ok vols := hg.1.symm
  obtain ⟨haws₁, Δ₁, htr₁, hm₁⟩ := hg.2
  have hc₂ : c₂ = ⟨c₁.aws, c₁.trace ++
      [ApiCall.stopInstances [e.cfg.instance_id],
       ApiCall.waitOp "instance_stopped" [e.cfg.instance_id]]⟩ := by
    have hs := stop_instance_ctx e.cfg c₁
    rw [h3] at hs
    exact hs
  subst hc₂
  obtain ⟨vols', Δ₂, insts₃, snaps₃, hebs', hm₂, haws₃, hsnapids₃, htr₃⟩ :=
    detach_volume_ok e.cfg _ c₃ h4
  have hvols : vols' = vols := by
    have he : ebsSpec c₀.aws e.cfg.instance_id = Except.ok vols' := by
      rw [← haws₁]
      exact hebs'
    exact Except.ok.inj (he.symm.trans hebs)
  rw [hvols] at htr₃
  obtain ⟨vols₂, hfa₂, hssval, hsslen, haws₄, htr₄⟩ :=
    create_snapshots_ok e.cfg _ _ _ _ h5
  obtain ⟨snaps, hfa₃, hnvval, hnvlen, haws₅, htr₅⟩ :=
    create_volume_ok e.cfg az _ _ _ _ h6
  obtain ⟨hb, devs, hdevlen, htr₆⟩ := attach_volume_trace e.cfg _ _ _ _ h7
  have hc₇ : c₇ = ⟨c₆.aws, c₆.trace ++
      [ApiCall.startInstances [e.cfg.instance_id],
       ApiCall.waitOp "instance_status_ok" [e.cfg.instance_id]]⟩ := by
    have hs := start_instance_ctx e.cfg c₆
    rw [h8] at hs
    exact hs
  subst hc₇
  obtain ⟨snapsF, hdel⟩ := delete_snapshots_run ss _
  rw [h9] at hdel
  have hct' : c'.trace = (c₆.trace ++
      [ApiCall.startInstances [e.cfg.instance_id],
       ApiCall.waitOp "instance_status_ok" [e.cfg.instance_id]]) ++
      ss.map ApiCall.deleteSnapshot := by
    injection hdel with hd1 hd2
    rw [hd2]
  refine ⟨vols, vols₂, snaps, ss, nvids, devs, az, Δ₁, Δ₂,
    hebs, hm₁, hm₂, ?_, ?_, ?_, hnvlen, hdevlen, ?_⟩
  · simpa using hsslen
  · simpa using (List.Forall₂.length_eq hfa₂).symm
  · exact (List.Forall₂.length_eq hfa₃).symm
  · rw [hct', htr₆, htr₅, htr₄, htr₃]
    simp [show c₁.trace = c₀.trace ++ Δ₁ from htr₁, List.append_assoc]

/-! ## C9: every intermediate snapshot is deleted -/

/-- C9: in any successful program run, every snapshot-creation request in
the run's trace is followed by a delete request for the id the provider
assigned to it, so no snapshot created by the workflow persists. -/
theorem c9_all_snapshots_deleted (iid key : String) (c c' : Ctx)
    (hrun : runEncryptEC2 iid key c = (Except.ok (), c')) :
    ∀ vid tg sid,
      ApiCall.createSnapshot vid tg sid ∈ c'.trace.drop c.trace.length →
      ApiCall.deleteSnapshot sid ∈ c'.trace.drop c.trace.length := by
  intro vid tg sid hmem
  simp only [runEncryptEC2, bind_def] at hrun
  obtain ⟨e, c₀, hinit, hse⟩ := (M.bind_ok _ _ _ _ _).mp hrun
  have hro₀ : ReadOnly c c₀ := by
    have h := init_readonly iid key c
    rwa [hinit] at h
  obtain ⟨haws₀, Δ₀, htr₀, hm₀⟩ := hro₀
  by_cases hp : e.pre_checks_passed
  · obtain ⟨vols, vols₂, snaps, ss, nvids, devs, az, Δ₁, Δ₂, hebs, hm₁, hm₂,
      hlen1, hlen2, hlen3, hlen4, hlen5, htr⟩ := start_encryption_trace e c₀ c' hp hse
    rw [htr, htr₀] at hmem ⊢
    simp only [List.append_assoc] at hmem ⊢
    rw [List.drop_left] at hmem ⊢
    simp only [List.mem_append] at hmem
    rcases hmem with h | h | h | h | h | h | h | h | h | h
    · exact absurd (hm₀ _ h) (by simp [ApiCall.isMutating])
    · exact absurd (hm₁ _ h) (by simp [ApiCall.isMutating])
    · simp at h
    · exact absurd (hm₂ _ h) (by simp [ApiCall.isMutating])
    · obtain ⟨item, _, hin⟩ := List.mem_flatMap.mp h
      simp at hin
    · obtain ⟨x, y, hx, _, hin⟩ := mem_flatten_zipWith h
      simp only [List.mem_cons, List.not_mem_nil, or_false] at hin
      rcases hin with hin | hin
      · have hsid : sid = x := (ApiCall.createSnapshot.inj hin).2.2
        subst hsid
        have hdel : ApiCall.deleteSnapshot sid ∈ ss.map ApiCall.deleteSnapshot :=
          List.mem_map_of_mem ApiCall.deleteSnapshot hx
        exact List.mem_append_right _ (List.mem_append_right _
          (List.mem_append_right _ (List.mem_append_right _
          (List.mem_append_right _ (List.mem_append_right _
          (List.mem_append_right _ (List.mem_append_right _
          (List.mem_append_right _ hdel))))))))
      · simp at hin
    · obtain ⟨x, y, _, _, hin⟩ := mem_flatten_zipWith h
      simp at hin
    · obtain ⟨x, y, _, _, he⟩ := mem_zipWith h
      simp at he
    · simp at h
    · simp at h
  · have hskip := start_encryption_skip e c₀
      (by simpa using hp)
    rw [hskip] at hse
    injection hse with hs1 hs2
    subst hs2
    rw [htr₀, List.drop_left] at hmem
    exact absurd (hm₀ _ hmem) (by simp [ApiCall.isMutating])

/-- The demo run, executed step by step: it succeeds and ends in
`demoRunOut`. -/
theorem demoRun_eq :
    runEncryptEC2 "i-1" "key" demoCtx = (Except.ok (), demoRunOut) := by
  have e0 : EncryptEC2.init "i-1" "key" demoCtx =
      (Except.ok ⟨mkCfg "i-1" "key", true, some demoInst⟩, ctxA) := by rfl
  have e1 : get_ebs_list (mkCfg "i-1" "key") ctxA = (Except.ok [demoVol], ctxB) := by rfl
  have e2 : get_az (⟨mkCfg "i-1" "key", true, some demoInst⟩ : EncryptEC2) ctxB =
      (Except.ok "us-east-1a", ctxB) := by rfl
  have e3 : stop_instance (mkCfg "i-1" "key") ctxB = (Except.ok (), ctxC) := by rfl
  have e4 : detach_volume (mkCfg "i-1" "key") ctxC = (Except.ok (), ctxD) := by rfl
  have e5 : create_snapshots (mkCfg "i-1" "key") ([demoVol].map Volume.volumeId) ctxD =
      (Except.ok ["snap-1"], ctxE) := by rfl
  have e6 : create_volume (mkCfg "i-1" "key") "us-east-1a" ["snap-1"] ctxE =
      (Except.ok ["nvol-1"], ctxF) := by rfl
  have e7 : attach_volume (mkCfg "i-1" "key") ["nvol-1"] ctxF =
      (Except.ok true, ctxG) := by rfl
  have e8 : start_instance (mkCfg "i-1" "key") ctxG = (Except.ok (), ctxH) := by rfl
  have e9 : delete_snapshots ["snap-1"] ctxH = (Except.ok (), demoRunOut) := by rfl
  simp only [runEncryptEC2, bind_def, M.bind, e0, start_encryption, if_true,
    e1, e2, e3, e4, e5, e6, e7, e8, e9]

/-- Witness for C9 on the demo run: its one snapshot creation
(`snap-1`) is followed by a delete request for `snap-1`. -/
theorem c9_all_snapshots_deleted_witness :
    ApiCall.deleteSnapshot "snap-1" ∈ demoRunOut.trace.drop demoCtx.trace.length :=
  c9_all_snapshots_deleted "i-1" "key" demoCtx demoRunOut demoRun_eq "vol-1"
    [⟨"Name", "web"⟩, ⟨"device-name", "/dev/sda1"⟩, ⟨"volume-type", "gp2"⟩]
    "snap-1" (by decide)

/-! ## C1: exactly one snapshot, volume and attach per discovered volume -/

/-- A trace segment of non-mutating calls holds no matches for a
recognizer that only accepts mutating calls. -/
theorem countP_zero_of_not_mut (p : ApiCall → Bool)
    (hpm : ∀ a, p a = true → a.isMutating = true)
    (Δ : List ApiCall) (hm : ∀ a ∈ Δ, a.isMutating = false) :
    Δ.countP p = 0 := by
  rw [List.countP_eq_zero]
  intro a ha hpa
  have h1 := hpm a hpa
  have h2 := hm a ha
  rw [h1] at h2
  cases h2

/-- Counting over a `flatMap` whose chunks each hold `k` matches. -/
theorem countP_flatMap_const {α : Type} (p : ApiCall → Bool)
    (f : α → List ApiCall) (k : Nat) (hk : ∀ x, (f x).countP p = k)
    (l : List α) : (l.flatMap f).countP p = k * l.length := by
  induction l with
  | nil => simp
  | cons x xs ih =>
      simp only [List.flatMap_cons, List.countP_append, hk, ih, List.length_cons,
        Nat.mul_succ]
      omega

/-- Counting in a `zipWith` whose entries always match. -/
theorem countP_zipWith_true {α β : Type} (p : ApiCall → Bool)
    (f : α → β → ApiCall) (hk : ∀ x y, p (f x y) = true) :
    ∀ (xs : List α) (ys : List β),
      (List.zipWith f xs ys).countP p = min xs.length ys.length := by
  intro xs
  induction xs with
  | nil => intro ys; simp
  | cons x xs ih =>
      intro ys
      cases ys with
      | nil => simp
      | cons y ys =>
          simp only [List.zipWith_cons_cons, List.countP_cons, hk, ih ys,
            List.length_cons, if_true]
          rw [Nat.succ_min_succ]

/-- The snapshot-creation requests of `create_snapshots`, projected to
(source volume id, assigned snapshot id) pairs, are exactly the zip of
its inputs with its outputs. -/
theorem filterMap_snap_pairs :
    ∀ {vids : List String} {vols : List Volume},
      List.Forall₂ (fun vid v => Volume.volumeId v = vid) vids vols →
      ∀ (ss : List String), ss.length = vids.length →
      ((List.zipWith (fun sid (v : Volume) =>
        [ApiCall.createSnapshot v.volumeId (dropAwsTags v.tags) sid,
         ApiCall.waitOp "snapshot_completed" [sid]]) ss vols).flatten).filterMap
          snapCallPair = vids.zip ss := by
  intro vids vols hfa
  induction hfa with
  | nil =>
      intro ss hlen
      cases ss with
      | nil => simp
      | cons a as => simp at hlen
  | @cons vid v vids' vols' hv hrest ih =>
      intro ss hlen
      cases ss with
      | nil => simp at hlen
      | cons sid ssr =>
          simp only [List.length_cons] at hlen
          simp only [List.zipWith_cons_cons, List.flatten_cons, List.filterMap_append,
            List.zip_cons_cons]
          rw [ih ssr (by omega)]
          simp [snapCallPair, hv]

set_option maxHeartbeats 1600000 in
/-- C1: a successful run over `N` discovered unencrypted volumes (on a
findable, non-legacy instance) issues exactly `N` snapshot-creation
calls, exactly `N` volume-creation calls and exactly `N` attach calls;
and `create_snapshots` returns the assigned snapshot ids paired with the
input volume ids in input order. -/
theorem c1_call_counts_and_order :
    (∀ (iid key : String) (c c' : Ctx) (inst : Ec2Instance) (vols : List Volume),
      runEncryptEC2 iid key c = (Except.ok (), c') →
      findInstance c.aws iid = some inst →
      legacyType inst.instanceType = false →
      ebsSpec c.aws iid = Except.ok vols →
      ((c'.trace.drop c.trace.length).countP isCreateSnapshotCall = vols.length ∧
       (c'.trace.drop c.trace.length).countP isCreateVolumeCall = vols.length ∧
       (c'.trace.drop c.trace.length).countP isAttachVolumeCall = vols.length)) ∧
    (∀ (cfg : Cfg) (vids : List String) (c : Ctx) (ss : List String) (c' : Ctx),
      create_snapshots cfg vids c = (Except.ok ss, c') →
      (c'.trace.drop c.trace.length).filterMap snapCallPair = vids.zip ss) := by
  constructor
  · intro iid key c c' inst vols hrun hInst hleg hebs
    simp only [runEncryptEC2, bind_def] at hrun
    obtain ⟨e, c₀, hinit, hse⟩ := (M.bind_ok _ _ _ _ _).mp hrun
    have hro₀ : ReadOnly c (EncryptEC2.init iid key c).2 := init_readonly iid key c
    rw [hinit] at hro₀
    obtain ⟨haws₀, Δ₀, htr₀, hm₀⟩ := hro₀
    have htr₀' : c₀.trace = c.trace ++ Δ₀ := htr₀
    have haws₀' : c₀.aws = c.aws := haws₀
    by_cases hemp : vols = []
    · -- nothing to do: the pre-checks fail and the run is read-only
      subst hemp
      have hres : preChecksResSpec c.aws iid = some false := by
        unfold preChecksResSpec preChecksSpec
        simp [hebs]
      obtain ⟨c₁, hinit', hro'⟩ := init_spec iid key c (by simp [hres])
      rw [hinit'] at hinit
      injection hinit with hi1 hi2
      have hpf : e.pre_checks_passed = false := by
        rw [← Except.ok.inj hi1]
      have hskip := start_encryption_skip e c₀ hpf
      rw [hskip] at hse
      injection hse with hs1 hs2
      have hctx : c' = c₀ := hs2.symm
      rw [hctx, htr₀', List.drop_left]
      refine ⟨?_, ?_, ?_⟩ <;>
        · apply countP_zero_of_not_mut _ _ _ hm₀
          intro a ha
          cases a <;> first
            | rfl
            | simp [isCreateSnapshotCall, isCreateVolumeCall,
                isAttachVolumeCall] at ha
    · -- at least one volume: the pre-checks pass and the workflow runs
      have hres := preChecksResSpec_pass c.aws iid inst vols hInst hebs hemp hleg
      obtain ⟨c₁, hinit', hro'⟩ := init_pass iid key c inst hres hInst
      rw [hinit'] at hinit
      injection hinit with hi1 hi2
      have he := Except.ok.inj hi1
      subst he
      obtain ⟨vols', vols₂, snaps, ss, nvids, devs, az, Δ₁, Δ₂, hebs', hm₁, hm₂,
        hlen1, hlen2, hlen3, hlen4, hlen5, htr⟩ :=
        start_encryption_trace _ c₀ c' rfl hse
      have hvols' : vols' = vols := by
        rw [haws₀'] at hebs'
        exact Except.ok.inj (hebs'.symm.trans hebs)
      rw [hvols'] at hlen1 hlen2 htr
      rw [htr, htr₀']
      simp only [List.append_assoc]
      rw [List.drop_left]
      simp only [List.countP_append]
      have hz1 : ∀ p : ApiCall → Bool, (∀ a, p a = true → a.isMutating = true) →
          Δ₀.countP p = 0 ∧ Δ₁.countP p = 0 ∧ Δ₂.countP p = 0 :=
        fun p hp => ⟨countP_zero_of_not_mut p hp Δ₀ hm₀,
          countP_zero_of_not_mut p hp Δ₁ hm₁, countP_zero_of_not_mut p hp Δ₂ hm₂⟩
      refine ⟨?_, ?_, ?_⟩
      · obtain ⟨z0, z1, z2⟩ := hz1 isCreateSnapshotCall
          (by intro a ha; cases a <;> simp_all [isCreateSnapshotCall, ApiCall.isMutating])
        have hdel : (List.map ApiCall.deleteSnapshot ss).countP isCreateSnapshotCall = 0 := by
          rw [List.countP_eq_zero]
          intro a ha
          obtain ⟨s, _, rfl⟩ := List.mem_map.mp ha
          simp [isCreateSnapshotCall]
        rw [z0, z1, z2,
          countP_flatMap_const isCreateSnapshotCall _ 0
            (by intro x; simp [isCreateSnapshotCall]) vols,
          countP_flatten_zipWith isCreateSnapshotCall _ 1
            (by intro x y; simp [isCreateSnapshotCall]) ss vols₂,
          countP_flatten_zipWith isCreateSnapshotCall _ 0
            (by intro x y; simp [isCreateSnapshotCall]) nvids snaps,
          countP_zipWith_false isCreateSnapshotCall _
            (by intro x y; simp [isCreateSnapshotCall]) nvids devs,
          hdel]
        simp [isCreateSnapshotCall, hlen1, hlen2]
      · obtain ⟨z0, z1, z2⟩ := hz1 isCreateVolumeCall
          (by intro a ha; cases a <;> simp_all [isCreateVolumeCall, ApiCall.isMutating])
        have hdel : (List.map ApiCall.deleteSnapshot ss).countP isCreateVolumeCall = 0 := by
          rw [List.countP_eq_zero]
          intro a ha
          obtain ⟨s, _, rfl⟩ := List.mem_map.mp ha
          simp [isCreateVolumeCall]
        rw [z0, z1, z2,
          countP_flatMap_const isCreateVolumeCall _ 0
            (by intro x; simp [isCreateVolumeCall]) vols,
          countP_flatten_zipWith isCreateVolumeCall _ 0
            (by intro x y; simp [isCreateVolumeCall]) ss vols₂,
          countP_flatten_zipWith isCreateVolumeCall _ 1
            (by intro x y; simp [isCreateVolumeCall]) nvids snaps,
          countP_zipWith_false isCreateVolumeCall _
            (by intro x y; simp [isCreateVolumeCall]) nvids devs,
          hdel]
        simp [isCreateVolumeCall, hlen1, hlen3, hlen4]
      · obtain ⟨z0, z1, z2⟩ := hz1 isAttachVolumeCall
          (by intro a ha; cases a <;> simp_all [isAttachVolumeCall, ApiCall.isMutating])
        have hdel : (List.map ApiCall.deleteSnapshot ss).countP isAttachVolumeCall = 0 := by
          rw [List.countP_eq_zero]
          intro a ha
          obtain ⟨s, _, rfl⟩ := List.mem_map.mp ha
          simp [isAttachVolumeCall]
        rw [z0, z1, z2,
          countP_flatMap_const isAttachVolumeCall _ 0
            (by intro x; simp [isAttachVolumeCall]) vols,
          countP_flatten_zipWith isAttachVolumeCall _ 0
            (by intro x y; simp [isAttachVolumeCall]) ss vols₂,
          countP_flatten_zipWith isAttachVolumeCall _ 0
            (by intro x y; simp [isAttachVolumeCall]) nvids snaps,
          countP_zipWith_true isAttachVolumeCall _
            (by intro x y; simp [isAttachVolumeCall]) nvids devs,
          hdel]
        simp [isAttachVolumeCall, hlen1, hlen4, hlen5]
  · intro cfg vids c ss c' h
    obtain ⟨vols, hfa, hss, hlen, haws, htr⟩ := create_snapshots_ok cfg vids c ss c' h
    rw [htr, List.drop_left]
    exact filterMap_snap_pairs (hfa.imp (fun _ _ h => findVolume_id h)) ss hlen

/-- Witness for C1 on the demo run: one discovered volume, hence exactly
one snapshot-creation, one volume-creation and one attach call, and
`create_snapshots` pairs `vol-1` with `snap-1`. -/
theorem c1_call_counts_and_order_witness :
    ((demoRunOut.trace.drop demoCtx.trace.length).countP isCreateSnapshotCall = 1 ∧
     (demoRunOut.trace.drop demoCtx.trace.length).countP isCreateVolumeCall = 1 ∧
     (demoRunOut.trace.drop demoCtx.trace.length).countP isAttachVolumeCall = 1) ∧
    (snapDemoOut.trace.drop demoCtx.trace.length).filterMap snapCallPair =
      ["vol-1"].zip ["snap-1"] :=
  ⟨c1_call_counts_and_order.1 "i-1" "key" demoCtx demoRunOut demoInst [demoVol]
      demoRun_eq rfl rfl rfl,
   c1_call_counts_and_order.2 (mkCfg "i-1" "key") ["vol-1"] demoCtx ["snap-1"]
      snapDemoOut rfl⟩

/-! ## Pure facts about the per-volume detach transformation -/

/-- `detStep` preserves volume ids. -/
theorem detStep_volumeId (iid : String) (item v : Volume) :
    (detStep iid item v).volumeId = v.volumeId := by
  unfold detStep detDetachUpd detTagUpd
  split <;> split <;> rfl

/-- `detStep` preserves the encryption flag. -/
theorem detStep_encrypted (iid : String) (item v : Volume) :
    (detStep iid item v).encrypted = v.encrypted := by
  unfold detStep detDetachUpd detTagUpd
  split <;> split <;> rfl

/-- `detStep` for a foreign loop item leaves a volume unchanged. -/
theorem detStep_skip (iid : String) (item v : Volume)
    (h : item.volumeId ≠ v.volumeId) : detStep iid item v = v := by
  have h2 : v.volumeId ≠ item.volumeId := fun he => h he.symm
  unfold detStep detDetachUpd detTagUpd
  simp [h2]

/-- `detStep` applied to the loop item itself: the device and type tags
are recorded and the attachments to the instance are removed. -/
theorem detStep_self (iid : String) (v : Volume) :
    detStep iid v v =
      { v with tags := upsertTags v.tags [devTag v, typTag v],
               attachments := v.attachments.filter (fun a => !(a.instanceId == iid)) } := by
  unfold detStep detDetachUpd detTagUpd
  simp

/-- `detStep` only ever removes attachments. -/
theorem detStep_attach_sub (iid : String) (item v : Volume) (a : Attachment)
    (h : a ∈ (detStep iid item v).attachments) : a ∈ v.attachments := by
  unfold detStep detDetachUpd detTagUpd at h
  split at h <;> split at h <;>
    first
      | exact List.mem_of_mem_filter
          (show a ∈ List.filter (fun a => !(a.instanceId == iid)) v.attachments from h)
      | exact (show a ∈ v.attachments from h)

/-- A fold that maps a per-item update over the whole state list is the
map of the per-element fold. -/
theorem foldl_map_comm {ι α : Type} (g : ι → α → α) :
    ∀ (l : List ι) (ws : List α),
      l.foldl (fun vs i => vs.map (g i)) ws =
        ws.map (fun w => l.foldl (fun acc i => g i acc) w) := by
  intro l
  induction l with
  | nil => intro ws; simp
  | cons i rest ih =>
      intro ws
      simp only [List.foldl_cons, ih, List.map_map]
      rfl

/-- The per-element detach fold preserves volume ids. -/
theorem foldl_detStep_volumeId (iid : String) :
    ∀ (l : List Volume) (w : Volume),
      (l.foldl (fun acc item => detStep iid item acc) w).volumeId = w.volumeId := by
  intro l
  induction l with
  | nil => intro w; rfl
  | cons item rest ih =>
      intro w
      simp only [List.foldl_cons, ih, detStep_volumeId]

/-- The per-element detach fold preserves the encryption flag. -/
theorem foldl_detStep_encrypted (iid : String) :
    ∀ (l : List Volume) (w : Volume),
      (l.foldl (fun acc item => detStep iid item acc) w).encrypted = w.encrypted := by
  intro l
  induction l with
  | nil => intro w; rfl
  | cons item rest ih =>
      intro w
      simp only [List.foldl_cons, ih, detStep_encrypted]

/-- The per-element detach fold only ever removes attachments. -/
theorem foldl_detStep_attach_sub (iid : String) :
    ∀ (l : List Volume) (w : Volume) (a : Attachment),
      a ∈ (l.foldl (fun acc item => detStep iid item acc) w).attachments →
      a ∈ w.attachments := by
  intro l
  induction l with
  | nil => intro w a h; exact h
  | cons item rest ih =>
      intro w a h
      exact detStep_attach_sub iid item w a (ih _ a h)

/-- The detach fold over items whose ids all differ from a volume's id
leaves it unchanged. -/
theorem foldl_detStep_skip (iid : String) :
    ∀ (l : List Volume) (w : Volume),
      (∀ item ∈ l, item.volumeId ≠ w.volumeId) →
      l.foldl (fun acc item => detStep iid item acc) w = w := by
  intro l
  induction l with
  | nil => intro w _; rfl
  | cons item rest ih =>
      intro w hne
      simp only [List.foldl_cons,
        detStep_skip iid item w (hne item (List.mem_cons_self item rest))]
      exact ih w (fun x hx => hne x (List.mem_cons_of_mem _ hx))

/-- On a list of volumes with pairwise-distinct ids, the detach fold
starting from a member equals that member's own step. -/
theorem foldl_detStep_touch_once (iid : String) :
    ∀ (l : List Volume) (v : Volume),
      (l.map Volume.volumeId).Nodup → v ∈ l →
      l.foldl (fun acc item => detStep iid item acc) v = detStep iid v v := by
  intro l
  induction l with
  | nil => intro v _ hv; cases hv
  | cons item rest ih =>
      intro v hnd hv
      simp only [List.map_cons, List.nodup_cons] at hnd
      rcases List.mem_cons.mp hv with rfl | hv'
      · simp only [List.foldl_cons]
        apply foldl_detStep_skip
        intro x hx he
        rw [detStep_volumeId] at he
        exact hnd.1 (he ▸ List.mem_map_of_mem Volume.volumeId hx)
      · have hne : item.volumeId ≠ v.volumeId := by
          intro he
          exact hnd.1 (he ▸ List.mem_map_of_mem Volume.volumeId hv')
        simp only [List.foldl_cons, detStep_skip iid item v hne]
        exact ih v hnd.2 hv'

/-- Members of a successful `ebsLoopSpec` listing resolve to themselves
and are unencrypted. -/
theorem ebsLoopSpec_mem (aws : AwsState) :
    ∀ (bdm : List String) (vols : List Volume),
      ebsLoopSpec aws bdm = Except.ok vols →
      ∀ v ∈ vols, findVolume aws v.volumeId = some v ∧ v.encrypted = false := by
  intro bdm
  induction bdm with
  | nil =>
      intro vols h v hv
      simp only [ebsLoopSpec] at h
      rw [← Except.ok.inj h] at hv
      cases hv
  | cons vid rest ih =>
      intro vols h v hv
      simp only [ebsLoopSpec] at h
      rcases hf : findVolume aws vid with _ | w <;> rw [hf] at h
      · cases h
      rcases hr : ebsLoopSpec aws rest with e | others <;> rw [hr] at h
      · cases h
      rw [← Except.ok.inj h] at hv
      rcases List.mem_append.mp hv with hl | hrr
      · have hwv : v = w := by
          by_cases hwe : w.encrypted
          · simp [unencryptedOf, hwe] at hl
          · simp only [unencryptedOf] at hl
            simp [hwe] at hl
            exact hl
        subst hwv
        have hid : v.volumeId = vid := findVolume_id hf
        refine ⟨hid ▸ hf, ?_⟩
        by_cases hwe : v.encrypted
        · simp [unencryptedOf, hwe] at hl
        · simpa using hwe
      · exact ih others hr v hrr

/-- Members of a successful unencrypted-volume listing resolve to
themselves and are unencrypted. -/
theorem ebsSpec_mem (aws : AwsState) (iid : String) (vols : List Volume)
    (h : ebsSpec aws iid = Except.ok vols) :
    ∀ v ∈ vols, findVolume aws v.volumeId = some v ∧ v.encrypted = false := by
  unfold ebsSpec at h
  rcases hi : describeInstSpec aws iid with e | inst <;> rw [hi] at h
  · cases h
  · exact ebsLoopSpec_mem aws inst.blockDeviceMappings vols h

/-- Two right-hand lists of a right-unique relation over the same
left-hand list coincide. -/
theorem forall₂_right_eq {α β : Type} {R : α → β → Prop}
    (h : ∀ a b b', R a b → R a b' → b = b') :
    ∀ {l : List α} {l₁ l₂ : List β},
      List.Forall₂ R l l₁ → List.Forall₂ R l l₂ → l₁ = l₂ := by
  intro l l₁ l₂ h₁
  induction h₁ generalizing l₂ with
  | nil =>
      intro h₂
      cases h₂
      rfl
  | @cons a b l' l₁' hr _ ih =>
      intro h₂
      cases h₂ with
      | cons hr' hrest' =>
          rw [h a b _ hr hr', ih hrest']

/-- A relation holding pointwise on a list lifts to `Forall₂` of its two
mapped images. -/
theorem forall₂_map_map {α β γ : Type} (R : β → γ → Prop) (f : α → β) (g : α → γ) :
    ∀ {l : List α}, (∀ x ∈ l, R (f x) (g x)) → List.Forall₂ R (l.map f) (l.map g) := by
  intro l
  induction l with
  | nil => intro _; exact List.Forall₂.nil
  | cons x xs ih =>
      intro h
      exact List.Forall₂.cons (h x (List.mem_cons_self x xs))
        (ih (fun y hy => h y (List.mem_cons_of_mem _ hy)))

/-! ## Last-tag-value bookkeeping through upsert and the aws filter -/

/-- Filtering out tags of other keys does not change a key's last value. -/
theorem lastTagValue_filter (p : Tag → Bool) (k : String)
    (hp : ∀ t : Tag, t.key = k → p t = true) :
    ∀ (tags : List Tag) (i : String),
      lastTagValue (tags.filter p) k i = lastTagValue tags k i := by
  intro tags
  induction tags with
  | nil => intro i; rfl
  | cons t ts ih =>
      intro i
      by_cases hpt : p t = true
      · simp only [List.filter_cons, hpt, if_true, lastTagValue, List.foldl_cons]
        exact ih _
      · have hk : (t.key == k) = false := by
          rcases hbe : (t.key == k) with _ | _
          · rfl
          · exact absurd (hp t (by simpa using hbe)) hpt
        simp only [List.filter_cons, hpt, if_false, lastTagValue, List.foldl_cons, hk,
          Bool.false_eq_true]
        exact ih i

/-- A key-preserving tag rewrite that fixes the values of one key leaves
that key's last value unchanged. -/
theorem lastTagValue_keyfix (g : Tag → Tag) (k : String)
    (hkey : ∀ t, (g t).key = t.key)
    (hval : ∀ t, t.key = k → (g t).value = t.value) :
    ∀ (tags : List Tag) (i : String),
      lastTagValue (tags.map g) k i = lastTagValue tags k i := by
  intro tags
  induction tags with
  | nil => intro i; rfl
  | cons t ts ih =>
      intro i
      simp only [List.map_cons, lastTagValue, List.foldl_cons, hkey]
      by_cases htk : (t.key == k) = true
      · rw [if_pos htk, if_pos htk, hval t (by simpa using htk)]
        exact ih _
      · rw [if_neg htk, if_neg htk]
        exact ih _

/-- Overwriting the values of a present key ends the fold at the new
value. -/
theorem lastTagValue_map_rep (k val : String) :
    ∀ (tags : List Tag) (i : String),
      tags.any (fun x => x.key == k) = true →
      lastTagValue (tags.map (fun x =>
        if x.key == k then { x with value := val } else x)) k i = val := by
  intro tags
  induction tags with
  | nil => intro i h; simp at h
  | cons t ts ih =>
      intro i hany
      by_cases hts : ts.any (fun x => x.key == k) = true
      · simp only [List.map_cons, lastTagValue, List.foldl_cons]
        exact ih _ hts
      · have ht : (t.key == k) = true := by
          rcases List.any_eq_true.mp hany with ⟨x, hx, hpx⟩
          rcases List.mem_cons.mp hx with rfl | hx'
          · exact hpx
          · exact absurd (List.any_eq_true.mpr ⟨x, hx', hpx⟩) hts
        have hnone : ∀ x ∈ ts, x.key ≠ k := by
          intro x hx he
          exact hts (List.any_eq_true.mpr ⟨x, hx, by simpa using he⟩)
        have hmap : ts.map (fun x =>
            if x.key == k then ({ x with value := val } : Tag) else x) = ts := by
          have h1 : ∀ x ∈ ts,
              (if x.key == k then ({ x with value := val } : Tag) else x) = x := by
            intro x hx
            have hx' : (x.key == k) = false := by simpa using hnone x hx
            simp [hx']
          have h2 : ts.map (fun x =>
              if x.key == k then ({ x with value := val } : Tag) else x) =
              ts.map id := List.map_congr_left (fun x hx => h1 x hx)
          rw [h2, List.map_id]
        have hacc : ((if t.key == k then ({ t with value := val } : Tag) else t).key == k)
            = true := by
          simp [ht]
        have hval2 : (if t.key == k then ({ t with value := val } : Tag) else t).value
            = val := by
          simp [ht]
        simp only [List.map_cons, hmap, lastTagValue, List.foldl_cons]
        rw [if_pos hacc, hval2]
        exact lastTagValue_of_no_key ts k val hnone

/-- Splitting a tag list splits the last-value fold. -/
theorem lastTagValue_append (tags₁ tags₂ : List Tag) (k i : String) :
    lastTagValue (tags₁ ++ tags₂) k i = lastTagValue tags₂ k (lastTagValue tags₁ k i) := by
  unfold lastTagValue
  exact List.foldl_append _ _ _ _

/-- Upserting a key makes its last value the upserted value. -/
theorem lastTagValue_upsert_self (tags : List Tag) (k val i : String) :
    lastTagValue (upsertTag tags ⟨k, val⟩) k i = val := by
  show lastTagValue (if tags.any (fun x => x.key == k) then
      tags.map (fun x => if x.key == k then { x with value := val } else x)
    else tags ++ [⟨k, val⟩]) k i = val
  by_cases hany : tags.any (fun x => x.key == k) = true
  · rw [if_pos hany]
    exact lastTagValue_map_rep k val tags i hany
  · rw [if_neg hany, lastTagValue_append]
    simp [lastTagValue]

/-- Upserting one key does not change another key's last value. -/
theorem lastTagValue_upsert_other (tags : List Tag) (k' val k i : String)
    (hne : k' ≠ k) :
    lastTagValue (upsertTag tags ⟨k', val⟩) k i = lastTagValue tags k i := by
  show lastTagValue (if tags.any (fun x => x.key == k') then
      tags.map (fun x => if x.key == k' then { x with value := val } else x)
    else tags ++ [⟨k', val⟩]) k i = lastTagValue tags k i
  by_cases hany : tags.any (fun x => x.key == k') = true
  · rw [if_pos hany]
    apply lastTagValue_keyfix
    · intro t
      by_cases h : (t.key == k') = true
      · rw [if_pos h]
      · rw [if_neg h]
    · intro t htk
      have h : (t.key == k') = false := by
        rw [htk]
        simpa using fun he => hne he.symm
      simp [h]
  · rw [if_neg hany, lastTagValue_append]
    have h : ((k' : String) == k) = false := by simpa using hne
    simp [lastTagValue, h, hne]

/-- The device recorded by `detach_volume` survives the reserved-prefix
filter of `create_snapshots` and is the last `device-name` value of the
snapshot's tags. -/
theorem snapTags_device (v : Volume) :
    lastTagValue (dropAwsTags (upsertTags v.tags [devTag v, typTag v]))
      "device-name" "" = (v.attachments.headD noAttachment).device := by
  unfold dropAwsTags
  rw [lastTagValue_filter _ "device-name"
    (by intro t ht; rw [ht]; decide)]
  show lastTagValue (upsertTag (upsertTag v.tags (devTag v)) (typTag v))
    "device-name" "" = _
  unfold typTag
  rw [lastTagValue_upsert_other _ "volume-type" v.volumeType "device-name" _ (by decide)]
  unfold devTag
  rw [lastTagValue_upsert_self]

/-- The volume type recorded by `detach_volume` survives the
reserved-prefix filter and is the last `volume-type` value of the
snapshot's tags. -/
theorem snapTags_type (v : Volume) :
    lastTagValue (dropAwsTags (upsertTags v.tags [devTag v, typTag v]))
      "volume-type" "" = v.volumeType := by
  unfold dropAwsTags
  rw [lastTagValue_filter _ "volume-type"
    (by intro t ht; rw [ht]; decide)]
  show lastTagValue (upsertTag (upsertTag v.tags (devTag v)) (typTag v))
    "volume-type" "" = _
  unfold typTag
  rw [lastTagValue_upsert_self]

/-! ## Resolving freshly appended inventory entries -/

/-- Looking up each id of a fresh, duplicate-free id block in an
inventory extended by one entry per id finds exactly the block's own
entries, in order. -/
theorem find_append_block {α β : Type} (idf : α → String) (f : String → β → α)
    (hid : ∀ sid y, idf (f sid y) = sid) :
    ∀ (ss : List String) (ys : List β) (pre : List α),
      ss.Nodup → (∀ a ∈ pre, idf a ∉ ss) → ss.length ≤ ys.length →
      List.Forall₂ (fun sid a =>
        (pre ++ List.zipWith f ss ys).find? (fun a => idf a == sid) = some a)
        ss (List.zipWith f ss ys) := by
  intro ss
  induction ss with
  | nil => intro ys pre _ _ _; simp
  | cons sid rest ih =>
      intro ys pre hnd hpre hlen
      cases ys with
      | nil => simp at hlen
      | cons y yrest =>
          simp only [List.zipWith_cons_cons]
          have hnd' := List.nodup_cons.mp hnd
          refine List.Forall₂.cons ?_ ?_
          · rw [List.find?_append]
            have hpre0 : pre.find? (fun a => idf a == sid) = none := by
              rw [List.find?_eq_none]
              intro x hx
              have : idf x ≠ sid := fun he =>
                hpre x hx (he ▸ List.mem_cons_self sid rest)
              simpa using this
            rw [hpre0]
            simp [List.find?_cons, hid]
          · have hstep := ih yrest (pre ++ [f sid y]) hnd'.2
              (by
                intro a ha
                rcases List.mem_append.mp ha with h₁ | h₂
                · exact fun hm => hpre a h₁ (List.mem_cons_of_mem _ hm)
                · have : a = f sid y := by simpa using h₂
                  rw [this, hid]
                  exact hnd'.1)
              (by simpa using Nat.le_of_succ_le_succ hlen)
            have hre : (pre ++ [f sid y]) ++ List.zipWith f rest yrest =
                pre ++ f sid y :: List.zipWith f rest yrest := by
              simp
            rw [hre] at hstep
            exact hstep

/-- The attach loop over a fresh block of created volumes adds exactly
one attachment per block entry, at its tag-recorded device, and leaves
every pre-existing volume unchanged. -/
theorem attach_fold_block (iid : String) :
    ∀ (nvids : List String) (snaps : List Snapshot) (pre : List Volume),
      nvids.Nodup →
      (∀ w ∈ pre, w.volumeId ∉ nvids) →
      (List.zip nvids (List.zipWith (fun nvid (s : Snapshot) =>
          Volume.mk nvid (lastTagValue s.tags "volume-type" "") true s.tags [])
          nvids snaps)).foldl
        (fun vs p => vs.map (attachUpd (deviceOf p.2) iid p.1))
        (pre ++ List.zipWith (fun nvid (s : Snapshot) =>
          Volume.mk nvid (lastTagValue s.tags "volume-type" "") true s.tags [])
          nvids snaps)
      = pre ++ List.zipWith (fun nvid (s : Snapshot) =>
          Volume.mk nvid (lastTagValue s.tags "volume-type" "") true s.tags
            [⟨lastTagValue s.tags "device-name" "", iid⟩]) nvids snaps := by
  intro nvids
  induction nvids with
  | nil => intro snaps pre _ _; simp
  | cons nvid rest ih =>
      intro snaps pre hnd hpre
      cases snaps with
      | nil => simp
      | cons s srest =>
          have hnd' := List.nodup_cons.mp hnd
          simp only [List.zipWith_cons_cons, List.zip_cons_cons, List.foldl_cons]
          have hstep1 : (pre ++ Volume.mk nvid (lastTagValue s.tags "volume-type" "")
                true s.tags [] :: List.zipWith (fun nvid (s : Snapshot) =>
                  Volume.mk nvid (lastTagValue s.tags "volume-type" "") true s.tags [])
                  rest srest).map
              (attachUpd (deviceOf (Volume.mk nvid (lastTagValue s.tags "volume-type" "")
                true s.tags [])) iid nvid)
              = (pre ++ [Volume.mk nvid (lastTagValue s.tags "volume-type" "") true s.tags
                  [⟨lastTagValue s.tags "device-name" "", iid⟩]]) ++
                List.zipWith (fun nvid (s : Snapshot) =>
                  Volume.mk nvid (lastTagValue s.tags "volume-type" "") true s.tags [])
                  rest srest := by
            rw [List.map_append, List.map_cons]
            have hfix : pre.map (attachUpd (deviceOf (Volume.mk nvid
                (lastTagValue s.tags "volume-type" "") true s.tags [])) iid nvid) = pre := by
              have h1 : ∀ w ∈ pre, attachUpd (deviceOf (Volume.mk nvid
                  (lastTagValue s.tags "volume-type" "") true s.tags [])) iid nvid w = w := by
                intro w hw
                have hne2 : w.volumeId ≠ nvid := fun he =>
                  hpre w hw (he ▸ List.mem_cons_self nvid rest)
                have : (w.volumeId == nvid) = false := by simpa using hne2
                simp [attachUpd, this]
              have h2 : pre.map (attachUpd (deviceOf (Volume.mk nvid
                  (lastTagValue s.tags "volume-type" "") true s.tags [])) iid nvid) =
                  pre.map id := List.map_congr_left (fun w hw => h1 w hw)
              rw [h2, List.map_id]
            have hself : attachUpd (deviceOf (Volume.mk nvid
                (lastTagValue s.tags "volume-type" "") true s.tags [])) iid nvid
                (Volume.mk nvid (lastTagValue s.tags "volume-type" "") true s.tags []) =
                Volume.mk nvid (lastTagValue s.tags "volume-type" "") true s.tags
                  [⟨lastTagValue s.tags "device-name" "", iid⟩] := by
              simp [attachUpd, deviceOf]
            have hblk : (List.zipWith (fun nvid (s : Snapshot) =>
                Volume.mk nvid (lastTagValue s.tags "volume-type" "") true s.tags [])
                rest srest).map
                (attachUpd (deviceOf (Volume.mk nvid
                  (lastTagValue s.tags "volume-type" "") true s.tags [])) iid nvid) =
                List.zipWith (fun nvid (s : Snapshot) =>
                  Volume.mk nvid (lastTagValue s.tags "volume-type" "") true s.tags [])
                  rest srest := by
              have h1 : ∀ w ∈ List.zipWith (fun nvid (s : Snapshot) =>
                  Volume.mk nvid (lastTagValue s.tags "volume-type" "") true s.tags [])
                  rest srest,
                  attachUpd (deviceOf (Volume.mk nvid
                    (lastTagValue s.tags "volume-type" "") true s.tags [])) iid nvid w = w := by
                intro w hw
                obtain ⟨x, y, hx, _, rfl⟩ := mem_zipWith hw
                have hne2 : x ≠ nvid := fun he => hnd'.1 (he ▸ hx)
                have : ((Volume.mk x (lastTagValue y.tags "volume-type" "")
                    true y.tags []).volumeId == nvid) = false := by
                  simpa using hne2
                simp only [attachUpd, this, Bool.false_eq_true, if_false]
              have h2 : (List.zipWith (fun nvid (s : Snapshot) =>
                  Volume.mk nvid (lastTagValue s.tags "volume-type" "") true s.tags [])
                  rest srest).map
                  (attachUpd (deviceOf (Volume.mk nvid
                    (lastTagValue s.tags "volume-type" "") true s.tags [])) iid nvid) =
                  (List.zipWith (fun nvid (s : Snapshot) =>
                    Volume.mk nvid (lastTagValue s.tags "volume-type" "") true s.tags [])
                    rest srest).map id := List.map_congr_left (fun w hw => h1 w hw)
              rw [h2, List.map_id]
            rw [hfix, hself, hblk]
            simp
          rw [hstep1]
          have hrec := ih srest
            (pre ++ [Volume.mk nvid (lastTagValue s.tags "volume-type" "") true s.tags
              [⟨lastTagValue s.tags "device-name" "", iid⟩]])
            hnd'.2
            (by
              intro w hw
              rcases List.mem_append.mp hw with h₁ | h₂
              · exact fun hm => hpre w h₁ (List.mem_cons_of_mem _ hm)
              · have hweq : w = Volume.mk nvid (lastTagValue s.tags "volume-type" "")
                    true s.tags [⟨lastTagValue s.tags "device-name" "", iid⟩] := by
                  simpa using h₂
                rw [hweq]
                exact hnd'.1)
          rw [hrec]
          simp

/-- The tags `detach_volume` leaves on a loop item. -/
theorem detStep_tags (iid : String) (v : Volume) :
    (detStep iid v v).tags = upsertTags v.tags [devTag v, typTag v] := by
  rw [detStep_self]

/-- The volume id `detach_volume` leaves on a loop item. -/
theorem detStep_self_volumeId (iid : String) (v : Volume) :
    (detStep iid v v).volumeId = v.volumeId := detStep_volumeId iid v v

/-- Composing the snapshot block over the detached volumes with the
volume-creation shape collapses to one block indexed by the original
volumes: each created volume carries the filtered upserted tags of its
original volume. -/
theorem zipWith_attach_collapse (iid : String) :
    ∀ (nvids ss : List String) (vols : List Volume),
      ss.length = vols.length →
      List.zipWith (fun nvid (s : Snapshot) =>
        Volume.mk nvid (lastTagValue s.tags "volume-type" "") true s.tags
          [⟨lastTagValue s.tags "device-name" "", iid⟩]) nvids
        (List.zipWith (fun sid (v : Volume) =>
          Snapshot.mk sid v.volumeId (dropAwsTags v.tags)) ss
          (vols.map (fun v => detStep iid v v)))
      = List.zipWith (fun nvid (v : Volume) =>
          Volume.mk nvid
            (lastTagValue (dropAwsTags (upsertTags v.tags [devTag v, typTag v]))
              "volume-type" "") true
            (dropAwsTags (upsertTags v.tags [devTag v, typTag v]))
            [⟨lastTagValue (dropAwsTags (upsertTags v.tags [devTag v, typTag v]))
              "device-name" "", iid⟩]) nvids vols := by
  intro nvids
  induction nvids with
  | nil => intro ss vols _; simp
  | cons nvid rest ih =>
      intro ss vols hlen
      cases ss with
      | nil =>
          cases vols with
          | nil => simp
          | cons v vrest => simp at hlen
      | cons sid srest =>
          cases vols with
          | nil => simp at hlen
          | cons v vrest =>
              simp only [List.map_cons, List.zipWith_cons_cons]
              rw [ih srest vrest (by simpa using hlen)]
              simp [detStep_tags]

/-- Counting the encrypted volumes of the attached block that hold an
attachment at a given device for the instance counts the original
volumes whose recorded device is that device. -/
theorem countP_attach_block (iid dv : String) :
    ∀ (nvids : List String) (vols : List Volume),
      nvids.length = vols.length →
      (List.zipWith (fun nvid (v : Volume) =>
          Volume.mk nvid
            (lastTagValue (dropAwsTags (upsertTags v.tags [devTag v, typTag v]))
              "volume-type" "") true
            (dropAwsTags (upsertTags v.tags [devTag v, typTag v]))
            [⟨lastTagValue (dropAwsTags (upsertTags v.tags [devTag v, typTag v]))
              "device-name" "", iid⟩]) nvids vols).countP
        (fun w => w.encrypted && w.attachments.contains ⟨dv, iid⟩)
      = vols.countP (fun u => (u.attachments.headD noAttachment).device == dv) := by
  intro nvids
  induction nvids with
  | nil =>
      intro vols hlen
      cases vols with
      | nil => simp
      | cons v vrest => simp at hlen
  | cons nvid rest ih =>
      intro vols hlen
      cases vols with
      | nil => simp at hlen
      | cons v vrest =>
          simp only [List.zipWith_cons_cons, List.countP_cons]
          rw [ih vrest (by simpa using hlen)]
          have hdev := snapTags_device v
          by_cases hd : (v.attachments.headD noAttachment).device = dv
          · have hDdv : lastTagValue (dropAwsTags (upsertTags v.tags [devTag v, typTag v]))
                "device-name" "" = dv := hdev.trans hd
            have h1 : ((Volume.mk nvid
                (lastTagValue (dropAwsTags (upsertTags v.tags [devTag v, typTag v]))
                  "volume-type" "") true
                (dropAwsTags (upsertTags v.tags [devTag v, typTag v]))
                [⟨lastTagValue (dropAwsTags (upsertTags v.tags [devTag v, typTag v]))
                  "device-name" "", iid⟩]).encrypted &&
                (Volume.mk nvid
                (lastTagValue (dropAwsTags (upsertTags v.tags [devTag v, typTag v]))
                  "volume-type" "") true
                (dropAwsTags (upsertTags v.tags [devTag v, typTag v]))
                [⟨lastTagValue (dropAwsTags (upsertTags v.tags [devTag v, typTag v]))
                  "device-name" "", iid⟩]).attachments.contains ⟨dv, iid⟩) = true := by
              simp [hDdv]
            have h2 : ((v.attachments.headD noAttachment).device == dv) = true := by
              simpa using hd
            rw [if_pos h1, if_pos h2]
          · have hDne : lastTagValue (dropAwsTags (upsertTags v.tags [devTag v, typTag v]))
                "device-name" "" ≠ dv := by
              rw [hdev]
              exact hd
            have h1 : ((Volume.mk nvid
                (lastTagValue (dropAwsTags (upsertTags v.tags [devTag v, typTag v]))
                  "volume-type" "") true
                (dropAwsTags (upsertTags v.tags [devTag v, typTag v]))
                [⟨lastTagValue (dropAwsTags (upsertTags v.tags [devTag v, typTag v]))
                  "device-name" "", iid⟩]).encrypted &&
                (Volume.mk nvid
                (lastTagValue (dropAwsTags (upsertTags v.tags [devTag v, typTag v]))
                  "volume-type" "") true
                (dropAwsTags (upsertTags v.tags [devTag v, typTag v]))
                [⟨lastTagValue (dropAwsTags (upsertTags v.tags [devTag v, typTag v]))
                  "device-name" "", iid⟩]).attachments.contains ⟨dv, iid⟩) = false := by
              simp [Attachment.mk.injEq, hDne, Ne.symm hDne]
            have h2 : ((v.attachments.headD noAttachment).device == dv) = false := by
              simpa using hd
            rw [if_neg ?hc1, if_neg ?hc2]
            case hc1 => rw [h1]; exact Bool.false_ne_true
            case hc2 => rw [h2]; exact Bool.false_ne_true

/-- On a device-duplicate-free discovery list, exactly one volume records
a member's device. -/
theorem countP_device_one (dv : String) (vols : List Volume) (v : Volume)
    (hnd : (vols.map (fun u => (u.attachments.headD noAttachment).device)).Nodup)
    (hv : v ∈ vols)
    (hdv : (v.attachments.headD noAttachment).device = dv) :
    vols.countP (fun u => (u.attachments.headD noAttachment).device == dv) = 1 := by
  rw [show vols.countP (fun u => (u.attachments.headD noAttachment).device == dv) =
      (vols.map (fun u => (u.attachments.headD noAttachment).device)).countP
        (fun u => u == dv) from
      (List.countP_map (fun u : String => u == dv)
        (fun u : Volume => (u.attachments.headD noAttachment).device) vols).symm]
  rw [show (vols.map (fun u => (u.attachments.headD noAttachment).device)).countP
      (fun u => u == dv) =
      (vols.map (fun u => (u.attachments.headD noAttachment).device)).count dv from rfl]
  exact List.count_eq_one_of_mem hnd
    (hdv ▸ List.mem_map_of_mem (fun u => (u.attachments.headD noAttachment).device) hv)

set_option maxHeartbeats 1600000 in
/-- C2: in a successful run over a well-formed provider state (fresh
duplicate-free id supplies, duplicate-free discovered volume ids and
device paths, and no encrypted volume already attached to the instance at
a discovered device), every discovered unencrypted volume gets a snapshot
request carrying its upserted tags, the recorded `device-name` and
`volume-type` values survive the reserved-prefix filter onto those
snapshot tags, and the final state holds exactly one encrypted volume
attached to the instance at the original device — that volume carrying
exactly the snapshot's tags. -/
theorem c2_encrypted_replacement_per_volume
    (iid key : String) (c c' : Ctx) (inst : Ec2Instance) (vols : List Volume)
    (hrun : runEncryptEC2 iid key c = (Except.ok (), c'))
    (hInst : findInstance c.aws iid = some inst)
    (hleg : legacyType inst.instanceType = false)
    (hebs : ebsSpec c.aws iid = Except.ok vols)
    (hndv : (vols.map Volume.volumeId).Nodup)
    (hndS : c.aws.snapIdSupply.Nodup)
    (hndV : c.aws.volIdSupply.Nodup)
    (hdisjS : ∀ s ∈ c.aws.snapshots, s.snapshotId ∉ c.aws.snapIdSupply)
    (hdisjV : ∀ w ∈ c.aws.volumes, w.volumeId ∉ c.aws.volIdSupply)
    (hdev : (vols.map (fun u => (u.attachments.headD noAttachment).device)).Nodup)
    (hclean : ∀ w ∈ c.aws.volumes, w.encrypted = true → ∀ u ∈ vols,
      (⟨(u.attachments.headD noAttachment).device, iid⟩ : Attachment) ∉ w.attachments) :
    ∀ v ∈ vols,
      (∃ sid, ApiCall.createSnapshot v.volumeId
          (dropAwsTags (upsertTags v.tags [devTag v, typTag v])) sid ∈ c'.trace) ∧
      lastTagValue (dropAwsTags (upsertTags v.tags [devTag v, typTag v]))
        "device-name" "" = (v.attachments.headD noAttachment).device ∧
      lastTagValue (dropAwsTags (upsertTags v.tags [devTag v, typTag v]))
        "volume-type" "" = v.volumeType ∧
      c'.aws.volumes.countP (fun w => w.encrypted &&
        w.attachments.contains ⟨(v.attachments.headD noAttachment).device, iid⟩) = 1 ∧
      ∀ w ∈ c'.aws.volumes, w.encrypted = true →
        (⟨(v.attachments.headD noAttachment).device, iid⟩ : Attachment) ∈ w.attachments →
        w.tags = dropAwsTags (upsertTags v.tags [devTag v, typTag v]) := by
  intro v hv
  have hne : vols ≠ [] := List.ne_nil_of_mem hv
  simp only [runEncryptEC2, bind_def] at hrun
  obtain ⟨e, c₀, hinit, hse⟩ := (M.bind_ok _ _ _ _ _).mp hrun
  have hres := preChecksResSpec_pass c.aws iid inst vols hInst hebs hne hleg
  obtain ⟨c₁, hinit', hro'⟩ := init_pass iid key c inst hres hInst
  rw [hinit'] at hinit
  injection hinit with hi1 hi2
  have he := Except.ok.inj hi1
  subst he
  obtain ⟨haws₀, Δ₀, htr₀, hm₀⟩ : ReadOnly c c₀ := hi2 ▸ hro'
  obtain ⟨vols', c₁', az, c₂, c₃, ss, c₄, nvids, c₅, b, c₆, c₇,
    h1, h2, h3, h4, h5, h6, h7, h8, h9⟩ :=
    start_encryption_steps ⟨mkCfg iid key, true, some inst⟩ c₀ c' rfl hse
  have h1' : get_ebs_list (mkCfg iid key) c₀ = (Except.ok vols', c₁') := h1
  have h3' : stop_instance (mkCfg iid key) c₁' = (Except.ok (), c₂) := h3
  have h4' : detach_volume (mkCfg iid key) c₂ = (Except.ok (), c₃) := h4
  have h5' : create_snapshots (mkCfg iid key) (vols'.map Volume.volumeId) c₃ =
      (Except.ok ss, c₄) := h5
  have h6' : create_volume (mkCfg iid key) az ss c₄ = (Except.ok nvids, c₅) := h6
  have h7' : attach_volume (mkCfg iid key) nvids c₅ = (Except.ok b, c₆) := h7
  have h8' : start_instance (mkCfg iid key) c₆ = (Except.ok (), c₇) := h8
  have hg := get_ebs_list_spec (mkCfg iid key) c₀
  have hvols' : vols' = vols := by
    have hh : (Except.ok vols' : Except Err (List Volume)) = ebsSpec c₀.aws iid := by
      have h0 := hg.1
      rw [h1'] at h0
      exact h0
    rw [haws₀, hebs] at hh
    exact Except.ok.inj hh
  subst vols'
  obtain ⟨hawsg, Δ₁, htrg, hmg⟩ : ReadOnly c₀ c₁' := by
    have hro2 := hg.2
    rw [h1'] at hro2
    exact hro2
  have hc₂ : c₂ = ⟨c₁'.aws, c₁'.trace ++ [ApiCall.stopInstances [iid],
      ApiCall.waitOp "instance_stopped" [iid]]⟩ := by
    have hs := stop_instance_ctx (mkCfg iid key) c₁'
    rw [h3'] at hs
    exact hs
  have hawsc₂ : c₂.aws = c.aws := by
    rw [hc₂]
    exact hawsg.trans haws₀
  obtain ⟨vols'', Δ₂, insts₃, snaps₃, hebs'', hm₂, haws₃, hsnapids₃, htr₃⟩ :=
    detach_volume_ok (mkCfg iid key) c₂ c₃ h4'
  have hvols'' : vols'' = vols := by
    have hh : ebsSpec c.aws iid = Except.ok vols'' := by
      have h0 : ebsSpec c₂.aws iid = Except.ok vols'' := hebs''
      rw [hawsc₂] at h0
      exact h0
    exact Except.ok.inj (hh.symm.trans hebs)
  subst vols''
  have haws₃' : c₃.aws = { c.aws with
      instances := insts₃
      snapshots := snaps₃
      volumes := vols.foldl (fun vs item => vs.map (detStep iid item))
        c.aws.volumes } := by
    rw [haws₃, hawsc₂]
    rfl
  have hV₃ : c₃.aws.volumes = c.aws.volumes.map
      (fun w => vols.foldl (fun acc item => detStep iid item acc) w) := by
    rw [haws₃']
    exact foldl_map_comm (fun item => detStep iid item) vols c.aws.volumes
  obtain ⟨vols₂, hfa₂, hssv, hsslen₀, haws₄, htr₄⟩ :=
    create_snapshots_ok (mkCfg iid key) (vols.map Volume.volumeId) c₃ ss c₄ h5'
  have hsup₃ : c₃.aws.snapIdSupply = c.aws.snapIdSupply := by
    rw [haws₃']
  have hssv' : ss = c.aws.snapIdSupply.take vols.length := by
    rw [hssv, hsup₃, List.length_map]
  have hlenss : ss.length = vols.length := by
    simpa using hsslen₀
  have hfind₃ : ∀ u ∈ vols, findVolume c₃.aws u.volumeId = some (detStep iid u u) := by
    intro u hu
    have h0 : findVolume c.aws u.volumeId = some u := (ebsSpec_mem c.aws iid vols hebs u hu).1
    unfold findVolume
    rw [hV₃, findVolume_map c.aws.volumes _ (fun w => foldl_detStep_volumeId iid vols w)
      u.volumeId]
    rw [show c.aws.volumes.find? (fun w => w.volumeId == u.volumeId) = some u from h0]
    simp only [Option.map_some']
    rw [foldl_detStep_touch_once iid vols u hndv hu]
  have hvols₂ : vols₂ = vols.map (fun u => detStep iid u u) := by
    have hA : List.Forall₂ (fun vid w => findVolume c₃.aws vid = some w)
        (vols.map Volume.volumeId) (vols.map (fun u => detStep iid u u)) :=
      forall₂_map_map _ _ _ (fun u hu => hfind₃ u hu)
    exact forall₂_right_eq (fun a b b' hb hb' => Option.some.inj (hb.symm.trans hb'))
      hfa₂ hA
  have hlen₂ : vols₂.length = vols.length := by
    rw [hvols₂, List.length_map]
  have haws₄' : c₄.aws = { c₃.aws with
      snapshots := c₃.aws.snapshots ++ List.zipWith
        (fun sid v => Snapshot.mk sid v.volumeId (dropAwsTags v.tags)) ss vols₂
      snapIdSupply := c₃.aws.snapIdSupply.drop (vols.map Volume.volumeId).length } := haws₄
  have hsnap₃ : c₃.aws.snapshots = snaps₃ := by
    rw [haws₃']
  have hssnd : ss.Nodup := by
    rw [hssv']
    exact List.Nodup.sublist (List.take_sublist _ _) hndS
  have hsnapids' : snaps₃.map Snapshot.snapshotId = c.aws.snapshots.map Snapshot.snapshotId := by
    rw [hsnapids₃, hawsc₂]
  have hssfresh : ∀ s ∈ snaps₃, s.snapshotId ∉ ss := by
    intro s hs hmem
    have h1m : s.snapshotId ∈ snaps₃.map Snapshot.snapshotId :=
      List.mem_map_of_mem _ hs
    rw [hsnapids'] at h1m
    obtain ⟨s₀, hs₀, hid0⟩ := List.mem_map.mp h1m
    have hsup : s.snapshotId ∈ c.aws.snapIdSupply :=
      List.take_subset _ _ (hssv' ▸ hmem)
    exact hdisjS s₀ hs₀ (hid0 ▸ hsup)
  have hsnaps₄ : c₄.aws.snapshots = snaps₃ ++ List.zipWith
      (fun sid v => Snapshot.mk sid v.volumeId (dropAwsTags v.tags)) ss vols₂ := by
    rw [haws₄', hsnap₃]
  have hfaSB : List.Forall₂ (fun sid s => findSnapshot c₄.aws sid = some s) ss
      (List.zipWith (fun sid v => Snapshot.mk sid v.volumeId (dropAwsTags v.tags))
        ss vols₂) := by
    have hgen := find_append_block Snapshot.snapshotId
      (fun sid (v : Volume) => Snapshot.mk sid v.volumeId (dropAwsTags v.tags))
      (fun sid y => rfl) ss vols₂ snaps₃ hssnd hssfresh
      (le_of_eq (by rw [hlenss, hlen₂]))
    exact hgen.imp (fun sid s h => by unfold findSnapshot; rw [hsnaps₄]; exact h)
  obtain ⟨snaps, hfa₃, hnvv, hnvlen, haws₅, htr₅⟩ :=
    create_volume_ok (mkCfg iid key) az ss c₄ nvids c₅ h6'
  have hsnaps : snaps = List.zipWith
      (fun sid v => Snapshot.mk sid v.volumeId (dropAwsTags v.tags)) ss vols₂ :=
    forall₂_right_eq (fun a b b' hb hb' => Option.some.inj (hb.symm.trans hb'))
      hfa₃ hfaSB
  have hsnapslen : snaps.length = ss.length := (List.Forall₂.length_eq hfa₃).symm
  have hnvlen' : nvids.length = vols.length := by
    rw [hnvlen, hlenss]
  have hvsup₄ : c₄.aws.volIdSupply = c.aws.volIdSupply := by
    rw [haws₄', haws₃']
  have hnvv' : nvids = c.aws.volIdSupply.take ss.length := by
    rw [hnvv, hvsup₄]
  have hnvnd : nvids.Nodup := by
    rw [hnvv']
    exact List.Nodup.sublist (List.take_sublist _ _) hndV
  have hvol₄ : c₄.aws.volumes = c₃.aws.volumes := by
    rw [haws₄']
  have haws₅' : c₅.aws = { c₄.aws with
      volumes := c₄.aws.volumes ++ List.zipWith
        (fun nvid (s : Snapshot) =>
          Volume.mk nvid (lastTagValue s.tags "volume-type" "") true s.tags [])
        nvids snaps
      volIdSupply := c₄.aws.volIdSupply.drop ss.length } := haws₅
  have hidV₃ : ∀ w ∈ c₃.aws.volumes, w.volumeId ∉ nvids := by
    intro w hw hmem
    rw [hV₃] at hw
    obtain ⟨w₀, hw₀, hweq⟩ := List.mem_map.mp hw
    have hid : w.volumeId = w₀.volumeId := by
      rw [← hweq, foldl_detStep_volumeId]
    have hsup : w.volumeId ∈ c.aws.volIdSupply :=
      List.take_subset _ _ (hnvv' ▸ hmem)
    exact hdisjV w₀ hw₀ (hid ▸ hsup)
  have hvols₅ : c₅.aws.volumes = c₃.aws.volumes ++ List.zipWith
      (fun nvid (s : Snapshot) =>
        Volume.mk nvid (lastTagValue s.tags "volume-type" "") true s.tags [])
      nvids snaps := by
    rw [haws₅', hvol₄]
  have hfaNB : List.Forall₂ (fun nvid w => findVolume c₅.aws nvid = some w) nvids
      (List.zipWith (fun nvid (s : Snapshot) =>
        Volume.mk nvid (lastTagValue s.tags "volume-type" "") true s.tags [])
        nvids snaps) := by
    have hgen := find_append_block Volume.volumeId
      (fun nvid (s : Snapshot) =>
        Volume.mk nvid (lastTagValue s.tags "volume-type" "") true s.tags [])
      (fun sid y => rfl) nvids snaps c₃.aws.volumes hnvnd hidV₃
      (le_of_eq (by rw [hnvlen, ← hsnapslen]))
    exact hgen.imp (fun nvid w h => by unfold findVolume; rw [hvols₅]; exact h)
  obtain ⟨instsA, hawsA, htrA⟩ := attach_volume_ok (mkCfg iid key) nvids
    (List.zipWith (fun nvid (s : Snapshot) =>
      Volume.mk nvid (lastTagValue s.tags "volume-type" "") true s.tags [])
      nvids snaps) c₅ b c₆ h7' hnvnd hfaNB
  have hvols₆ : c₆.aws.volumes = c₃.aws.volumes ++ List.zipWith
      (fun nvid (s : Snapshot) =>
        Volume.mk nvid (lastTagValue s.tags "volume-type" "") true s.tags
          [⟨lastTagValue s.tags "device-name" "", iid⟩]) nvids snaps := by
    have h0 : c₆.aws.volumes = (List.zip nvids (List.zipWith
        (fun nvid (s : Snapshot) =>
          Volume.mk nvid (lastTagValue s.tags "volume-type" "") true s.tags [])
        nvids snaps)).foldl
        (fun vs p => vs.map (attachUpd (deviceOf p.2) iid p.1)) c₅.aws.volumes := by
      rw [hawsA]
      rfl
    rw [h0, hvols₅]
    exact attach_fold_block iid nvids snaps c₃.aws.volumes hnvnd hidV₃
  have hc₇ : c₇ = ⟨c₆.aws, c₆.trace ++ [ApiCall.startInstances [iid],
      ApiCall.waitOp "instance_status_ok" [iid]]⟩ := by
    have hs := start_instance_ctx (mkCfg iid key) c₆
    rw [h8'] at hs
    exact hs
  obtain ⟨snapsF, hdel⟩ := delete_snapshots_run ss c₇
  rw [h9] at hdel
  injection hdel with hd1 hd2
  have hvolsF : c'.aws.volumes = c₆.aws.volumes := by
    rw [hd2, hc₇]
  have hmemtr : ∀ a : ApiCall, a ∈ c₄.trace → a ∈ c'.trace := by
    intro a ha
    have h5t : a ∈ c₅.trace := by
      rw [htr₅]
      exact List.mem_append_left _ ha
    have h6t : a ∈ c₆.trace := by
      rw [htrA]
      exact List.mem_append_left _ h5t
    have h7t : a ∈ c₇.trace := by
      rw [hc₇]
      exact List.mem_append_left _ h6t
    rw [hd2]
    exact List.mem_append_left _ h7t
  refine ⟨?_, snapTags_device v, snapTags_type v, ?_, ?_⟩
  · -- the snapshot-creation request for `v`
    obtain ⟨sid, w, hRw, hcall⟩ := createSnapshot_call_mem hfa₂ ss hsslen₀
      v.volumeId (List.mem_map_of_mem Volume.volumeId hv)
    have hw : w = detStep iid v v :=
      (Option.some.inj ((hfind₃ v hv).symm.trans hRw)).symm
    subst hw
    rw [detStep_volumeId, detStep_tags] at hcall
    refine ⟨sid, hmemtr _ ?_⟩
    rw [htr₄]
    exact List.mem_append_right _ hcall
  · -- exactly one encrypted volume at the original device
    rw [hvolsF, hvols₆, List.countP_append]
    have hz : c₃.aws.volumes.countP (fun w => w.encrypted &&
        w.attachments.contains ⟨(v.attachments.headD noAttachment).device, iid⟩) = 0 := by
      rw [hV₃, List.countP_map, List.countP_eq_zero]
      intro w₀ hw₀ hp
      rw [Function.comp, Bool.and_eq_true] at hp
      have henc : w₀.encrypted = true := by
        rw [← foldl_detStep_encrypted iid vols w₀]
        exact hp.1
      have hmem : (⟨(v.attachments.headD noAttachment).device, iid⟩ : Attachment) ∈
          (vols.foldl (fun acc item => detStep iid item acc) w₀).attachments := by
        simpa using hp.2
      exact hclean w₀ hw₀ henc v hv (foldl_detStep_attach_sub iid vols w₀ _ hmem)
    rw [hz, hsnaps, hvols₂, zipWith_attach_collapse iid nvids ss vols hlenss,
      countP_attach_block iid _ nvids vols hnvlen',
      countP_device_one _ vols v hdev hv rfl]
  · -- any encrypted volume attached there carries the snapshot's tags
    intro w hw hwe hwa
    rw [hvolsF, hvols₆] at hw
    rcases List.mem_append.mp hw with hVm | hNB
    · rw [hV₃] at hVm
      obtain ⟨w₀, hw₀, hweq⟩ := List.mem_map.mp hVm
      have henc : w₀.encrypted = true := by
        rw [← foldl_detStep_encrypted iid vols w₀, hweq]
        exact hwe
      rw [← hweq] at hwa
      exact absurd (foldl_detStep_attach_sub iid vols w₀ _ hwa)
        (hclean w₀ hw₀ henc v hv)
    · rw [hsnaps, hvols₂, zipWith_attach_collapse iid nvids ss vols hlenss] at hNB
      obtain ⟨nvid, u, hnv, hu, hweq⟩ := mem_zipWith hNB
      subst hweq
      have h0 : (⟨(v.attachments.headD noAttachment).device, iid⟩ : Attachment) =
          ⟨lastTagValue (dropAwsTags (upsertTags u.tags [devTag u, typTag u]))
            "device-name" "", iid⟩ := List.mem_singleton.mp hwa
      injection h0 with h01 h02
      have hdu : (u.attachments.headD noAttachment).device =
          (v.attachments.headD noAttachment).device :=
        (snapTags_device u).symm.trans h01.symm
      have hu_v : u = v := List.inj_on_of_nodup_map hdev hu hv hdu
      subst hu_v
      rfl

/-- Witness for C2 on the demo run: `vol-1` gets a snapshot request with
its upserted tags, the recorded device `/dev/sda1` and type `gp2` survive
onto the snapshot tags, and the final state holds exactly one encrypted
volume attached to `i-1` at `/dev/sda1`, carrying those tags. -/
theorem c2_encrypted_replacement_per_volume_witness :
    (∃ sid, ApiCall.createSnapshot demoVol.volumeId
        (dropAwsTags (upsertTags demoVol.tags [devTag demoVol, typTag demoVol])) sid ∈
        demoRunOut.trace) ∧
    lastTagValue (dropAwsTags (upsertTags demoVol.tags [devTag demoVol, typTag demoVol]))
      "device-name" "" = (demoVol.attachments.headD noAttachment).device ∧
    lastTagValue (dropAwsTags (upsertTags demoVol.tags [devTag demoVol, typTag demoVol]))
      "volume-type" "" = demoVol.volumeType ∧
    demoRunOut.aws.volumes.countP (fun w => w.encrypted &&
      w.attachments.contains ⟨(demoVol.attachments.headD noAttachment).device, "i-1"⟩) = 1 ∧
    ∀ w ∈ demoRunOut.aws.volumes, w.encrypted = true →
      (⟨(demoVol.attachments.headD noAttachment).device, "i-1"⟩ : Attachment) ∈
        w.attachments →
      w.tags = dropAwsTags (upsertTags demoVol.tags [devTag demoVol, typTag demoVol]) :=
  c2_encrypted_replacement_per_volume "i-1" "key" demoCtx demoRunOut demoInst [demoVol]
    demoRun_eq rfl rfl rfl (by decide) (by decide) (by decide) (by decide) (by decide)
    (by decide) (by decide) demoVol (by decide)

end EncryptAws
